import Mathlib

/-!
Verification of the core storage and query-construction layer of the
cursor-tools repository: the fluent SQL query builder
(src/unnamed/part_023, class QueryBuilder), the key-value storage
service (src/unnamed/part_022, class DatabaseService), the per-workspace
logical store (workspace.ts, class Workspace), workspace discovery
(workspace-manager.ts, class WorkspaceManager) and the notepad record
collection (notepad.ts / notepad-manager.ts).

The TypeScript classes are embedded shallowly: mutable builder state
becomes a Lean structure threaded through pure functions, thrown
exceptions become Except results, the SQLite ItemTable becomes a list of
rows, and the JavaScript JSON values exchanged at the storage boundary
become the inductive type Json below, with JSON.stringify and JSON.parse
modelled as executable Lean functions (numbers are modelled as integers;
float literals are outside the model).
-/

/-! ## JSON values

JavaScript values that can flow through JSON.stringify / JSON.parse.
Mutual inductives are used instead of nested List fields so that all
functions over them are structural recursions that reduce inside the
kernel. -/

mutual

inductive Json where
  | null
  | bool (b : Bool)
  | num (n : Int)
  | str (s : String)
  | arr (elems : JsonArr)
  | obj (fields : JsonObj)

inductive JsonArr where
  | nil
  | cons (hd : Json) (tl : JsonArr)

inductive JsonObj where
  | nil
  | cons (key : String) (val : Json) (tl : JsonObj)

end

/-- Build a JsonObj from a list of key-value pairs (for readable literals). -/
def JsonObj.ofList : List (String × Json) → JsonObj
  | [] => .nil
  | kv :: kvs => .cons kv.1 kv.2 (JsonObj.ofList kvs)

/-- Build a JsonArr from a list (for readable literals). -/
def JsonArr.ofList : List Json → JsonArr
  | [] => .nil
  | x :: xs => .cons x (JsonArr.ofList xs)

/-- Property access o.k on a parsed JSON object: JSON.parse collapses
duplicate keys (last wins) and our parser inserts with replace-or-append,
so objects in play have distinct keys and the first match is the value. -/
def JsonObj.getField : JsonObj → String → Option Json
  | .nil, _ => none
  | .cons k v tl, key => if k = key then some v else JsonObj.getField tl key

/-- Property assignment o[k] = v on a JavaScript object: replace the
existing entry in place, else append (JS property insertion order). -/
def JsonObj.setField : JsonObj → String → Json → JsonObj
  | .nil, key, v => .cons key v .nil
  | .cons k w tl, key, v =>
    if k = key then .cons k v tl else .cons k w (JsonObj.setField tl key v)

/-- Property deletion, JS delete o[k]. -/
def JsonObj.delField : JsonObj → String → JsonObj
  | .nil, _ => .nil
  | .cons k w tl, key =>
    if k = key then JsonObj.delField tl key else .cons k w (JsonObj.delField tl key)

/-- Whether a key is present. -/
def JsonObj.hasField (o : JsonObj) (key : String) : Bool :=
  (o.getField key).isSome

/-- JavaScript truthiness test on a JSON value (used by patterns such as
`if (!data) continue` in the source). NaN does not arise in the model. -/
def Json.falsy : Json → Bool
  | .null => true
  | .bool b => !b
  | .num n => n = 0
  | .str s => s = ""
  | _ => false

/-- Model of the JavaScript typeof x === "object" test: true for objects,
arrays and null. -/
def Json.typeofObject : Json → Bool
  | .null => true
  | .arr _ => true
  | .obj _ => true
  | _ => false

/-! ## JSON.stringify -/

/-- Decimal digits of n, most significant first, by fuel-indexed
division so that the definition reduces inside the kernel. -/
def natDigitsAux : Nat → Nat → List Char
  | 0, _ => []
  | fuel + 1, n => if n = 0 then [] else natDigitsAux fuel (n / 10) ++ [Char.ofNat (48 + n % 10)]

/-- Digits of a natural number, most significant first, as characters. -/
def natChars (n : Nat) : List Char :=
  if n = 0 then ['0'] else natDigitsAux n n

/-- Character of a hex digit below 16, lowercase, as emitted by
JSON.stringify for control-character escapes. -/
def hexChar (n : Nat) : Char :=
  if n < 10 then Char.ofNat (48 + n) else Char.ofNat (87 + n)

/-- JSON.stringify escaping of one character inside a string literal. -/
def escChar (c : Char) : List Char :=
  if c = '"' then ['\\', '"']
  else if c = '\\' then ['\\', '\\']
  else if c = '\x08' then ['\\', 'b']
  else if c = '\x0c' then ['\\', 'f']
  else if c = '\n' then ['\\', 'n']
  else if c = '\r' then ['\\', 'r']
  else if c = '\t' then ['\\', 't']
  else if c.toNat < 32 then
    ['\\', 'u', '0', '0', hexChar (c.toNat / 16), hexChar (c.toNat % 16)]
  else [c]

/-- JSON.stringify of a string value, including the surrounding quotes. -/
def escString (s : String) : List Char :=
  '"' :: (s.data.map escChar).flatten ++ ['"']

/-- Serialization of an integer (JSON.stringify on a JS number holding an
integral value). -/
def intChars (n : Int) : List Char :=
  if n < 0 then '-' :: natChars n.natAbs else natChars n.natAbs

/-- The keyword emitted for the null value. -/
def nullChars : List Char := ['n', 'u', 'l', 'l']

/-- The keyword emitted for true. -/
def trueChars : List Char := ['t', 'r', 'u', 'e']

/-- The keyword emitted for false. -/
def falseChars : List Char := ['f', 'a', 'l', 's', 'e']

mutual

/-- Character stream produced by JSON.stringify (no spacing argument):
members in insertion order, no whitespace. -/
def strChars : Json → List Char
  | .null => nullChars
  | .bool true => trueChars
  | .bool false => falseChars
  | .num n => intChars n
  | .str s => escString s
  | .arr .nil => ['[', ']']
  | .arr (.cons x xs) => '[' :: (strChars x ++ strArrItems xs)
  | .obj .nil => ['\x7b', '\x7d']
  | .obj (.cons k v kvs) => '\x7b' :: (escString k ++ (':' :: strChars v) ++ strObjItems kvs)

/-- Remaining array items after the first: separators then the closing bracket. -/
def strArrItems : JsonArr → List Char
  | .nil => [']']
  | .cons x xs => ',' :: (strChars x ++ strArrItems xs)

/-- Remaining object members after the first. -/
def strObjItems : JsonObj → List Char
  | .nil => ['\x7d']
  | .cons k v kvs => ',' :: (escString k ++ (':' :: strChars v) ++ strObjItems kvs)

end

/-- JSON.stringify as a String-valued function. -/
def Json.stringify (j : Json) : String := ⟨strChars j⟩

/-! ## Error values

Model of the error classes in workspace/errors.ts. Only the fields the
source inspects are kept; the cause is reduced to its message. -/

/-- A plain JavaScript Error carrying a message. -/
structure JsError where
  message : String
deriving DecidableEq, Repr

/-- DatabaseError from errors.ts: message, operation tag, optional cause. -/
structure DatabaseError where
  message : String
  operation : String
  cause : Option JsError
deriving DecidableEq, Repr

/-! ## Query builder (src/unnamed/part_023)

The QueryBuilder class state and its fluent methods. Methods that throw
in the source (whereIn on an empty list, limit and offset on negatives)
return Except values; the others are total state transformers. The
internal params field of the class is omitted: the source resets it to []
at the start of every build(), so it never carries state between calls
and build below recomputes the parameter list from the clause state. -/

/-- SQLValue from the source: string, number, boolean, null, Date or
object (objects and arrays are represented by a Json payload). -/
inductive SQLValue where
  | str (s : String)
  | num (n : Int)
  | bool (b : Bool)
  | null
  | date (ms : Int)
  | obj (j : Json)

/-- OrderDirection. -/
inductive OrderDirection where
  | ASC
  | DESC
deriving DecidableEq, Repr

/-- SQL text of an order direction. -/
def OrderDirection.text : OrderDirection → String
  | .ASC => "ASC"
  | .DESC => "DESC"

/-- JoinType. -/
inductive JoinType where
  | INNER
  | LEFT
  | RIGHT
  | FULL
deriving DecidableEq, Repr

/-- SQL text of a join type. -/
def JoinType.text : JoinType → String
  | .INNER => "INNER"
  | .LEFT => "LEFT"
  | .RIGHT => "RIGHT"
  | .FULL => "FULL"

/-- QueryCondition: a SQL fragment plus its positional parameters. -/
structure QueryCondition where
  sql : String
  params : List SQLValue

/-- OrderByClause. -/
structure OrderByClause where
  field : String
  direction : OrderDirection

/-- JoinClause. -/
structure JoinClause where
  type : JoinType
  table : String
  condition : String
  params : List SQLValue

/-- SetClause. -/
structure SetClause where
  field : String
  value : SQLValue

/-- The private state of a QueryBuilder instance. -/
structure QueryBuilder where
  selectClause : List String := []
  fromTable : String := ""
  whereConditions : List QueryCondition := []
  joinClauses : List JoinClause := []
  groupByFields : List String := []
  havingConditions : List QueryCondition := []
  orderByClauses : List OrderByClause := []
  limitValue : Option Int := none
  offsetValue : Option Int := none
  setClauses : List SetClause := []
  isInsert : Bool := false
  isDelete : Bool := false
  insertValues : Option (List (String × SQLValue)) := none

/-- A freshly constructed builder (new QueryBuilder()). -/
def QueryBuilder.init : QueryBuilder := {}

/-- select(fields). -/
def QueryBuilder.select (b : QueryBuilder) (fields : List String) : QueryBuilder :=
  { b with selectClause := fields }

/-- from(table). -/
def QueryBuilder.from_ (b : QueryBuilder) (table : String) : QueryBuilder :=
  { b with fromTable := table }

/-- where(condition, ...params). -/
def QueryBuilder.where_ (b : QueryBuilder) (condition : String) (params : List SQLValue) : QueryBuilder :=
  { b with whereConditions := b.whereConditions ++ [⟨condition, params⟩] }

/-- The DatabaseError thrown by whereIn on an empty values array. -/
def emptyInError : DatabaseError :=
  ⟨"Empty values array in WHERE IN clause", "query_builder", some ⟨"Values array cannot be empty"⟩⟩

/-- The WHERE IN fragment built from the field and one placeholder per value. -/
def whereInSql (field : String) (values : List SQLValue) : String :=
  field ++ " IN (" ++ String.intercalate ", " (values.map (fun _ => "?")) ++ ")"

/-- whereIn(field, values): throws on an empty values array, otherwise
adds a placeholder-only IN condition carrying the values as parameters. -/
def QueryBuilder.whereIn (b : QueryBuilder) (field : String) (values : List SQLValue) :
    Except DatabaseError QueryBuilder :=
  if values.length = 0 then .error emptyInError
  else .ok (b.where_ (whereInSql field values) values)

/-- The WHERE LIKE fragment. -/
def whereLikeSql (field : String) : String := field ++ " LIKE ?"

/-- whereLike(field, pattern). -/
def QueryBuilder.whereLike (b : QueryBuilder) (field : String) (pat : String) : QueryBuilder :=
  b.where_ (whereLikeSql field) [.str pat]

/-- The WHERE BETWEEN fragment. -/
def whereBetweenSql (field : String) : String := field ++ " BETWEEN ? AND ?"

/-- whereBetween(field, start, end). -/
def QueryBuilder.whereBetween (b : QueryBuilder) (field : String) (start stop : SQLValue) : QueryBuilder :=
  b.where_ (whereBetweenSql field) [start, stop]

/-- join(type, table, condition, ...params). -/
def QueryBuilder.join (b : QueryBuilder) (type : JoinType) (table : String)
    (condition : String) (params : List SQLValue) : QueryBuilder :=
  { b with joinClauses := b.joinClauses ++ [⟨type, table, condition, params⟩] }

/-- innerJoin(table, condition, ...params). -/
def QueryBuilder.innerJoin (b : QueryBuilder) (table : String) (condition : String)
    (params : List SQLValue) : QueryBuilder :=
  b.join .INNER table condition params

/-- leftJoin(table, condition, ...params). -/
def QueryBuilder.leftJoin (b : QueryBuilder) (table : String) (condition : String)
    (params : List SQLValue) : QueryBuilder :=
  b.join .LEFT table condition params

/-- groupBy(fields). -/
def QueryBuilder.groupBy (b : QueryBuilder) (fields : List String) : QueryBuilder :=
  { b with groupByFields := fields }

/-- having(condition, ...params). -/
def QueryBuilder.having (b : QueryBuilder) (condition : String) (params : List SQLValue) : QueryBuilder :=
  { b with havingConditions := b.havingConditions ++ [⟨condition, params⟩] }

/-- orderBy(field, direction). -/
def QueryBuilder.orderBy (b : QueryBuilder) (field : String) (direction : OrderDirection) : QueryBuilder :=
  { b with orderByClauses := b.orderByClauses ++ [⟨field, direction⟩] }

/-- The DatabaseError thrown by limit on a negative value. -/
def limitError : DatabaseError :=
  ⟨"Invalid LIMIT value", "query_builder", some ⟨"LIMIT value cannot be negative"⟩⟩

/-- limit(value): throws on negatives. -/
def QueryBuilder.limit (b : QueryBuilder) (value : Int) : Except DatabaseError QueryBuilder :=
  if value < 0 then .error limitError
  else .ok { b with limitValue := some value }

/-- The DatabaseError thrown by offset on a negative value. -/
def offsetError : DatabaseError :=
  ⟨"Invalid OFFSET value", "query_builder", some ⟨"OFFSET value cannot be negative"⟩⟩

/-- offset(value): throws on negatives. -/
def QueryBuilder.offset (b : QueryBuilder) (value : Int) : Except DatabaseError QueryBuilder :=
  if value < 0 then .error offsetError
  else .ok { b with offsetValue := some value }

/-- The JSON-stringification applied by set() and insert() to object
values (typeof value === "object", not null, not a Date). -/
def processValue : SQLValue → SQLValue
  | .obj j => .str j.stringify
  | v => v

/-- set(field, value). -/
def QueryBuilder.set (b : QueryBuilder) (field : String) (value : SQLValue) : QueryBuilder :=
  { b with setClauses := b.setClauses ++ [⟨field, processValue value⟩] }

/-- insert(values). -/
def QueryBuilder.insert (b : QueryBuilder) (values : List (String × SQLValue)) : QueryBuilder :=
  { b with
    isInsert := true
    insertValues := some (values.map (fun kv => (kv.1, processValue kv.2))) }

/-- delete(). -/
def QueryBuilder.delete (b : QueryBuilder) : QueryBuilder :=
  { b with isDelete := true }

/-- reset(). -/
def QueryBuilder.reset (_ : QueryBuilder) : QueryBuilder := {}

/-- The DatabaseError thrown by build when no table was given. -/
def noFromError : DatabaseError :=
  ⟨"No FROM clause specified", "query_builder", some ⟨"FROM clause is required"⟩⟩

/-- The statement-head parts pushed by build(): the isDelete branch is
tested first, then setClauses (UPDATE), then isInsert with values
(INSERT), else SELECT. -/
def headParts (b : QueryBuilder) : List String :=
  if b.isDelete then ["DELETE FROM " ++ b.fromTable]
  else if b.setClauses.length > 0 then
    ["UPDATE " ++ b.fromTable,
     "SET " ++ String.intercalate ", " (b.setClauses.map (fun c => c.field ++ " = ?"))]
  else if b.isInsert && b.insertValues.isSome then
    match b.insertValues with
    | some vs =>
        ["INSERT INTO " ++ b.fromTable ++ " (" ++ String.intercalate ", " (vs.map Prod.fst) ++
         ") VALUES (" ++ String.intercalate ", " (vs.map (fun _ => "?")) ++ ")"]
    | none => []
  else
    ["SELECT " ++ (if b.selectClause.length > 0 then String.intercalate ", " b.selectClause else "*"),
     "FROM " ++ b.fromTable]

/-- The parameters pushed while building the statement head. -/
def headParams (b : QueryBuilder) : List SQLValue :=
  if b.isDelete then []
  else if b.setClauses.length > 0 then b.setClauses.map SetClause.value
  else if b.isInsert && b.insertValues.isSome then
    match b.insertValues with
    | some vs => vs.map Prod.snd
    | none => []
  else []

/-- The clause parts build() appends after the statement head, in the
fixed order JOIN, WHERE, GROUP BY, HAVING, ORDER BY, LIMIT, OFFSET. -/
def tailParts (b : QueryBuilder) : List String :=
  (b.joinClauses.map (fun j => j.type.text ++ " JOIN " ++ j.table ++ " ON " ++ j.condition)) ++
  (if b.whereConditions.length > 0 then
    ["WHERE " ++ String.intercalate " AND " (b.whereConditions.map QueryCondition.sql)]
  else []) ++
  (if b.groupByFields.length > 0 then
    ["GROUP BY " ++ String.intercalate ", " b.groupByFields]
  else []) ++
  (if b.havingConditions.length > 0 then
    ["HAVING " ++ String.intercalate " AND " (b.havingConditions.map QueryCondition.sql)]
  else []) ++
  (if b.orderByClauses.length > 0 then
    ["ORDER BY " ++ String.intercalate ", "
      (b.orderByClauses.map (fun c => c.field ++ " " ++ c.direction.text))]
  else []) ++
  (match b.limitValue with
   | some v => ["LIMIT " ++ toString v]
   | none => []) ++
  (match b.offsetValue with
   | some v => ["OFFSET " ++ toString v]
   | none => [])

/-- JavaScript parts.join(" "). -/
def joinSpace : List String → String
  | [] => ""
  | [x] => x
  | x :: y :: xs => x ++ " " ++ joinSpace (y :: xs)

/-- The full query text of build(): all parts joined by single spaces. -/
def buildQuery (b : QueryBuilder) : String :=
  joinSpace (headParts b ++ tailParts b)

/-- The parameter list of build(): head-branch values, then join
parameters in call order, then where parameters, then having parameters,
mirroring the push order in the source. -/
def buildParams (b : QueryBuilder) : List SQLValue :=
  headParams b ++
  (b.joinClauses.map JoinClause.params).flatten ++
  (b.whereConditions.map QueryCondition.params).flatten ++
  (b.havingConditions.map QueryCondition.params).flatten

/-- The pair returned by build(). -/
structure BuildResult where
  query : String
  params : List SQLValue

/-- build(): fails when no table was specified, otherwise assembles the
query text and the positional parameter list. -/
def QueryBuilder.build (b : QueryBuilder) : Except DatabaseError BuildResult :=
  if b.fromTable = "" then .error noFromError
  else .ok ⟨buildQuery b, buildParams b⟩

/-! ## Builder call traces

A reified language of public QueryBuilder method calls, used to quantify
over every sequence of builder invocations in the safety claims. -/

/-- One public method call on a QueryBuilder. -/
inductive BuilderCall where
  | select (fields : List String)
  | from_ (table : String)
  | whereRaw (condition : String) (params : List SQLValue)
  | whereIn (field : String) (values : List SQLValue)
  | whereLike (field : String) (pat : String)
  | whereBetween (field : String) (start stop : SQLValue)
  | join (type : JoinType) (table : String) (condition : String) (params : List SQLValue)
  | innerJoin (table : String) (condition : String) (params : List SQLValue)
  | leftJoin (table : String) (condition : String) (params : List SQLValue)
  | groupBy (fields : List String)
  | having (condition : String) (params : List SQLValue)
  | orderBy (field : String) (direction : OrderDirection)
  | limit (value : Int)
  | offset (value : Int)
  | set (field : String) (value : SQLValue)
  | insert (values : List (String × SQLValue))
  | delete
  | reset

/-- Run one call against a builder state; calls that throw in the source
produce errors. -/
def applyCall (b : QueryBuilder) : BuilderCall → Except DatabaseError QueryBuilder
  | .select fields => .ok (b.select fields)
  | .from_ table => .ok (b.from_ table)
  | .whereRaw c ps => .ok (b.where_ c ps)
  | .whereIn f vs => b.whereIn f vs
  | .whereLike f p => .ok (b.whereLike f p)
  | .whereBetween f a z => .ok (b.whereBetween f a z)
  | .join ty t c ps => .ok (b.join ty t c ps)
  | .innerJoin t c ps => .ok (b.innerJoin t c ps)
  | .leftJoin t c ps => .ok (b.leftJoin t c ps)
  | .groupBy fields => .ok (b.groupBy fields)
  | .having c ps => .ok (b.having c ps)
  | .orderBy f d => .ok (b.orderBy f d)
  | .limit v => b.limit v
  | .offset v => b.offset v
  | .set f v => .ok (b.set f v)
  | .insert vs => .ok (b.insert vs)
  | .delete => .ok b.delete
  | .reset => .ok b.reset

/-- Run a whole call sequence from a given state. -/
def applyCalls (b : QueryBuilder) : List BuilderCall → Except DatabaseError QueryBuilder
  | [] => .ok b
  | c :: cs =>
    match applyCall b c with
    | .ok b2 => applyCalls b2 cs
    | .error e => .error e

/-- Replace every element of a parameter list by the SQL null value. -/
def nulls (ps : List SQLValue) : List SQLValue := ps.map (fun _ => SQLValue.null)

/-- Erase the supplied literal values from one call, keeping its shape:
field names, fragments, tables and value counts are preserved while every
value becomes null. whereLike and whereBetween are mapped to the whereRaw
call producing the identical SQL fragment. -/
def eraseCall : BuilderCall → BuilderCall
  | .select fields => .select fields
  | .from_ table => .from_ table
  | .whereRaw c ps => .whereRaw c (nulls ps)
  | .whereIn f vs => .whereIn f (nulls vs)
  | .whereLike f _ => .whereRaw (whereLikeSql f) [SQLValue.null]
  | .whereBetween f _ _ => .whereRaw (whereBetweenSql f) [SQLValue.null, SQLValue.null]
  | .join ty t c ps => .join ty t c (nulls ps)
  | .innerJoin t c ps => .innerJoin t c (nulls ps)
  | .leftJoin t c ps => .leftJoin t c (nulls ps)
  | .groupBy fields => .groupBy fields
  | .having c ps => .having c (nulls ps)
  | .orderBy f d => .orderBy f d
  | .limit v => .limit v
  | .offset v => .offset v
  | .set f _ => .set f SQLValue.null
  | .insert vs => .insert (vs.map (fun kv => (kv.1, SQLValue.null)))
  | .delete => .delete
  | .reset => .reset

/-- Erase the stored literal values from a builder state, keeping all
text fragments, field names and value counts. -/
def eraseState (b : QueryBuilder) : QueryBuilder :=
  { b with
    whereConditions := b.whereConditions.map (fun c => ⟨c.sql, nulls c.params⟩)
    joinClauses := b.joinClauses.map (fun j => ⟨j.type, j.table, j.condition, nulls j.params⟩)
    havingConditions := b.havingConditions.map (fun c => ⟨c.sql, nulls c.params⟩)
    setClauses := b.setClauses.map (fun c => ⟨c.field, SQLValue.null⟩)
    insertValues := b.insertValues.map (fun vs => vs.map (fun kv => (kv.1, SQLValue.null))) }

/-- The literal values a single call supplies (after the JSON
auto-serialization that set and insert apply before storing). -/
def callValues : BuilderCall → List SQLValue
  | .whereRaw _ ps => ps
  | .whereIn _ vs => vs
  | .whereLike _ p => [.str p]
  | .whereBetween _ a z => [a, z]
  | .join _ _ _ ps => ps
  | .innerJoin _ _ ps => ps
  | .leftJoin _ _ ps => ps
  | .having _ ps => ps
  | .set _ v => [processValue v]
  | .insert vs => vs.map (fun kv => processValue kv.2)
  | _ => []

/-- All literal values a trace supplies, in call order. -/
def traceValues (t : List BuilderCall) : List SQLValue :=
  (t.map callValues).flatten

/-- The values held anywhere in a builder state. -/
def stateValues (b : QueryBuilder) : List SQLValue :=
  b.setClauses.map SetClause.value ++
  (match b.insertValues with
   | some vs => vs.map Prod.snd
   | none => []) ++
  (b.joinClauses.map JoinClause.params).flatten ++
  (b.whereConditions.map QueryCondition.params).flatten ++
  (b.havingConditions.map QueryCondition.params).flatten

/-! ## Lemmas: value erasure commutes with the builder -/

/-- Erasing twice is erasing once on parameter lists. -/
theorem nulls_nulls (ps : List SQLValue) : nulls (nulls ps) = nulls ps := by
  simp [nulls]

/-- Placeholder lists only depend on the length, so erasure keeps them. -/
theorem placeholders_nulls (vs : List SQLValue) :
    (nulls vs).map (fun _ => "?") = vs.map (fun _ => "?") := by
  simp [nulls]

/-- The pristine builder has no values to erase. -/
theorem eraseState_init : eraseState QueryBuilder.init = QueryBuilder.init := rfl

/-- Running an erased call on an erased state is the erasure of running
the original call: the builder never moves values anywhere but the
parameter stores that eraseState clears. -/
theorem applyCall_erase (b : QueryBuilder) (c : BuilderCall) :
    applyCall (eraseState b) (eraseCall c) = (applyCall b c).map eraseState := by
  cases c
  case whereIn f vs =>
    by_cases hv : vs.length = 0 <;>
      simp [applyCall, eraseCall, eraseState, QueryBuilder.whereIn, QueryBuilder.where_,
        whereInSql, nulls, hv, List.map_append, Except.map]
  case limit v =>
    by_cases hv : v < 0 <;>
      simp [applyCall, eraseCall, eraseState, QueryBuilder.limit, hv, Except.map]
  case offset v =>
    by_cases hv : v < 0 <;>
      simp [applyCall, eraseCall, eraseState, QueryBuilder.offset, hv, Except.map]
  all_goals
    simp [applyCall, eraseCall, eraseState, QueryBuilder.select, QueryBuilder.from_,
      QueryBuilder.where_, QueryBuilder.whereLike,
      QueryBuilder.whereBetween, QueryBuilder.join, QueryBuilder.innerJoin,
      QueryBuilder.leftJoin, QueryBuilder.groupBy, QueryBuilder.having,
      QueryBuilder.orderBy,
      QueryBuilder.set, QueryBuilder.insert, QueryBuilder.delete, QueryBuilder.reset,
      nulls, processValue, List.map_append, List.map_map, Function.comp, Except.map]

/-- Running an erased trace from an erased state yields the erased result
state (and the identical error when the original trace fails). -/
theorem applyCalls_erase (t : List BuilderCall) :
    ∀ b, applyCalls (eraseState b) (t.map eraseCall) = (applyCalls b t).map eraseState := by
  induction t with
  | nil => intro b; simp [applyCalls, Except.map]
  | cons c cs ih =>
    intro b
    have h := applyCall_erase b c
    cases hc : applyCall b c with
    | ok b2 =>
      rw [hc] at h
      simp only [Except.map] at h
      simp only [List.map_cons, applyCalls, h, hc]
      exact ih b2
    | error e =>
      rw [hc] at h
      simp only [Except.map] at h
      simp only [List.map_cons, applyCalls, h, hc, Except.map]

/-- The statement-head text does not depend on the stored values. -/
theorem headParts_erase (b : QueryBuilder) : headParts (eraseState b) = headParts b := by
  cases hiv : b.insertValues <;>
    simp [headParts, eraseState, hiv, List.map_map, Function.comp_def]

/-- The clause-tail text does not depend on the stored values. -/
theorem tailParts_erase (b : QueryBuilder) : tailParts (eraseState b) = tailParts b := by
  simp [tailParts, eraseState, List.map_map, Function.comp_def]

/-- The full query text does not depend on the stored values. -/
theorem buildQuery_erase (b : QueryBuilder) : buildQuery (eraseState b) = buildQuery b := by
  simp [buildQuery, headParts_erase, tailParts_erase]

/-- Every parameter emitted by build() is a value stored in the state. -/
theorem buildParams_mem (b : QueryBuilder) (p : SQLValue) (hp : p ∈ buildParams b) :
    p ∈ stateValues b := by
  simp only [buildParams, headParams, stateValues, List.mem_append] at hp ⊢
  rcases hp with (((hp | hp) | hp) | hp)
  · split at hp
    · simp at hp
    · split at hp
      · tauto
      · split at hp
        · cases hiv : b.insertValues with
          | none => rw [hiv] at hp; simp at hp
          | some vs => rw [hiv] at hp; tauto
        · simp at hp
  · tauto
  · tauto
  · tauto

/-- One successful call only adds values that the call itself supplied. -/
theorem stateValues_applyCall (b b2 : QueryBuilder) (c : BuilderCall) (p : SQLValue)
    (h : applyCall b c = .ok b2) (hp : p ∈ stateValues b2) :
    p ∈ stateValues b ∨ p ∈ callValues c := by
  cases c
  case whereIn f vs =>
    simp only [applyCall, QueryBuilder.whereIn] at h
    split at h
    · cases h
    · injection h with h
      subst h
      simp only [stateValues, callValues, QueryBuilder.where_, List.map_append,
        List.flatten_append, List.map_cons, List.map_nil, List.flatten_cons,
        List.flatten_nil, List.append_nil, List.mem_append] at hp ⊢
      tauto
  case limit v =>
    simp only [applyCall, QueryBuilder.limit] at h
    split at h
    · cases h
    · injection h with h
      subst h
      exact Or.inl hp
  case offset v =>
    simp only [applyCall, QueryBuilder.offset] at h
    split at h
    · cases h
    · injection h with h
      subst h
      exact Or.inl hp
  case select fields =>
    simp only [applyCall] at h
    injection h with h
    subst h
    exact Or.inl hp
  case from_ table =>
    simp only [applyCall] at h
    injection h with h
    subst h
    exact Or.inl hp
  case groupBy fields =>
    simp only [applyCall] at h
    injection h with h
    subst h
    exact Or.inl hp
  case orderBy f d =>
    simp only [applyCall] at h
    injection h with h
    subst h
    exact Or.inl hp
  case delete =>
    simp only [applyCall] at h
    injection h with h
    subst h
    exact Or.inl hp
  case reset =>
    simp only [applyCall] at h
    injection h with h
    subst h
    simp [stateValues, QueryBuilder.reset, callValues] at hp
  all_goals
    simp only [applyCall] at h
  all_goals
    injection h with h
  all_goals
    subst h
  all_goals
    simp only [stateValues, callValues, QueryBuilder.where_, QueryBuilder.whereLike,
      QueryBuilder.whereBetween, QueryBuilder.join, QueryBuilder.innerJoin,
      QueryBuilder.leftJoin, QueryBuilder.having, QueryBuilder.set, QueryBuilder.insert,
      List.map_append, List.flatten_append, List.map_cons, List.map_nil,
      List.flatten_cons, List.flatten_nil, List.append_nil, List.mem_append,
      List.mem_cons, List.not_mem_nil, List.map_map, Function.comp_def] at hp ⊢
  all_goals
    tauto

/-- A successful trace only stores values the trace supplied. -/
theorem stateValues_applyCalls (t : List BuilderCall) :
    ∀ b b2, applyCalls b t = .ok b2 →
      ∀ p ∈ stateValues b2, p ∈ stateValues b ∨ p ∈ traceValues t := by
  induction t with
  | nil =>
    intro b b2 h p hp
    simp only [applyCalls] at h
    injection h with h
    subst h
    exact Or.inl hp
  | cons c cs ih =>
    intro b b2 h p hp
    simp only [applyCalls] at h
    cases hc : applyCall b c with
    | ok bm =>
      rw [hc] at h
      rcases ih bm b2 h p hp with h1 | h1
      · rcases stateValues_applyCall b bm c p hc h1 with h2 | h2
        · exact Or.inl h2
        · right
          simp only [traceValues, List.map_cons, List.flatten_cons, List.mem_append]
          exact Or.inl h2
      · right
        simp only [traceValues, List.map_cons, List.flatten_cons, List.mem_append]
        exact Or.inr h1
    | error e =>
      rw [hc] at h
      cases h

/-- The erased state keeps the target table. -/
theorem eraseState_fromTable (b : QueryBuilder) : (eraseState b).fromTable = b.fromTable := rfl

/-- The pristine builder stores no values. -/
theorem stateValues_init : stateValues QueryBuilder.init = [] := rfl

/-- C1. For every sequence of builder calls that supplies literal values
through where, whereIn, whereLike, whereBetween, set or insert, the query
string returned by build() is unchanged when every supplied value is
erased to null (so no value is ever interpolated into the SQL text, which
carries only placeholder markers for them), and every entry of the
returned params list is one of the values the trace supplied. -/
theorem C1_builder_value_safety (t : List BuilderCall) (b : QueryBuilder) (r : BuildResult)
    (happ : applyCalls QueryBuilder.init t = .ok b) (hbuild : b.build = .ok r) :
    ∃ b2 r2, applyCalls QueryBuilder.init (t.map eraseCall) = .ok b2 ∧
      b2.build = .ok r2 ∧ r2.query = r.query ∧ ∀ p ∈ r.params, p ∈ traceValues t := by
  have hf : ¬ b.fromTable = "" := by
    intro hf
    simp [QueryBuilder.build, hf] at hbuild
  have hr : r = ⟨buildQuery b, buildParams b⟩ := by
    simp only [QueryBuilder.build, if_neg hf] at hbuild
    injection hbuild with hb
    exact hb.symm
  subst hr
  refine ⟨eraseState b, ⟨buildQuery (eraseState b), buildParams (eraseState b)⟩, ?_, ?_, ?_, ?_⟩
  · have h := applyCalls_erase t QueryBuilder.init
    rw [eraseState_init, happ] at h
    simpa [Except.map] using h
  · simp only [QueryBuilder.build, eraseState_fromTable, if_neg hf]
  · exact buildQuery_erase b
  · intro p hp
    have h1 := buildParams_mem b p hp
    rcases stateValues_applyCalls t QueryBuilder.init b happ p h1 with h2 | h2
    · rw [stateValues_init] at h2
      cases h2
    · exact h2

/-- Witness for C1 at a concrete trace carrying SQL metacharacters. -/
theorem C1_builder_value_safety_witness :
    (applyCalls QueryBuilder.init
      [BuilderCall.from_ "ItemTable",
       BuilderCall.whereLike "key" "x; DROP TABLE ItemTable; --",
       BuilderCall.set "value" (SQLValue.str "v1")] =
      .ok { fromTable := "ItemTable",
            whereConditions := [⟨"key LIKE ?", [SQLValue.str "x; DROP TABLE ItemTable; --"]⟩],
            setClauses := [⟨"value", SQLValue.str "v1"⟩] } ∧
     QueryBuilder.build
       { fromTable := "ItemTable",
         whereConditions := [⟨"key LIKE ?", [SQLValue.str "x; DROP TABLE ItemTable; --"]⟩],
         setClauses := [⟨"value", SQLValue.str "v1"⟩] } =
      .ok ⟨"UPDATE ItemTable SET value = ? WHERE key LIKE ?",
           [SQLValue.str "v1", SQLValue.str "x; DROP TABLE ItemTable; --"]⟩) ∧
    (∃ b2 r2, applyCalls QueryBuilder.init
        ([BuilderCall.from_ "ItemTable",
          BuilderCall.whereLike "key" "x; DROP TABLE ItemTable; --",
          BuilderCall.set "value" (SQLValue.str "v1")].map eraseCall) = .ok b2 ∧
      b2.build = .ok r2 ∧
      r2.query = "UPDATE ItemTable SET value = ? WHERE key LIKE ?" ∧
      ∀ p ∈ [SQLValue.str "v1", SQLValue.str "x; DROP TABLE ItemTable; --"],
        p ∈ traceValues
          [BuilderCall.from_ "ItemTable",
           BuilderCall.whereLike "key" "x; DROP TABLE ItemTable; --",
           BuilderCall.set "value" (SQLValue.str "v1")]) :=
  ⟨⟨rfl, rfl⟩,
   C1_builder_value_safety
     [BuilderCall.from_ "ItemTable",
      BuilderCall.whereLike "key" "x; DROP TABLE ItemTable; --",
      BuilderCall.set "value" (SQLValue.str "v1")]
     { fromTable := "ItemTable",
       whereConditions := [⟨"key LIKE ?", [SQLValue.str "x; DROP TABLE ItemTable; --"]⟩],
       setClauses := [⟨"value", SQLValue.str "v1"⟩] }
     ⟨"UPDATE ItemTable SET value = ? WHERE key LIKE ?",
      [SQLValue.str "v1", SQLValue.str "x; DROP TABLE ItemTable; --"]⟩
     rfl rfl⟩

/-- joinSpace starts with its first part. -/
theorem joinSpace_cons (x : String) (l : List String) :
    ∃ r2, joinSpace (x :: l) = x ++ r2 := by
  cases l with
  | nil => exact ⟨"", by simp [joinSpace]⟩
  | cons y ys => exact ⟨" " ++ joinSpace (y :: ys), by simp [joinSpace, String.append_assoc]⟩

/-- C3 counterexample. A builder carrying both a set-clause (UPDATE
marker) and the delete marker builds a DELETE statement, not the UPDATE
statement the claimed UPDATE-over-INSERT-over-DELETE precedence
predicts. -/
theorem C3_counterexample :
    QueryBuilder.build
      (QueryBuilder.delete
        (QueryBuilder.set (QueryBuilder.from_ QueryBuilder.init "t") "a" (SQLValue.str "x"))) =
      .ok ⟨"DELETE FROM t", []⟩ ∧
    ("DELETE FROM t").take 6 ≠ "UPDATE" := by
  exact ⟨rfl, by decide⟩

/-- C3 as amended. build() resolves multiple statement markers
deterministically (it is a pure function of the builder state), with the
precedence DELETE over UPDATE over INSERT over SELECT: the isDelete flag
wins over set-clauses, which win over the insert marker. -/
theorem C3_marker_precedence (b : QueryBuilder) (r : BuildResult)
    (hb : b.build = .ok r) :
    (b.isDelete = true → ∃ rest, r.query = "DELETE FROM " ++ rest) ∧
    (b.isDelete = false → 0 < b.setClauses.length → ∃ rest, r.query = "UPDATE " ++ rest) ∧
    (b.isDelete = false → b.setClauses.length = 0 →
      (b.isInsert && b.insertValues.isSome) = true → ∃ rest, r.query = "INSERT INTO " ++ rest) ∧
    (b.isDelete = false → b.setClauses.length = 0 →
      (b.isInsert && b.insertValues.isSome) = false → ∃ rest, r.query = "SELECT " ++ rest) := by
  have hf : ¬ b.fromTable = "" := by
    intro hf
    simp [QueryBuilder.build, hf] at hb
  have hr : r = ⟨buildQuery b, buildParams b⟩ := by
    simp only [QueryBuilder.build, if_neg hf] at hb
    injection hb with hb2
    exact hb2.symm
  subst hr
  refine ⟨?_, ?_, ?_, ?_⟩
  · intro hd
    simp only [buildQuery, headParts, hd, if_true, List.cons_append, List.nil_append]
    obtain ⟨r2, hr2⟩ := joinSpace_cons ("DELETE FROM " ++ b.fromTable) (tailParts b)
    exact ⟨b.fromTable ++ r2, by rw [hr2, String.append_assoc]⟩
  · intro hd hs
    simp only [buildQuery, headParts, hd, hs, if_true, if_false, Bool.false_eq_true,
      List.cons_append, List.nil_append]
    obtain ⟨r2, hr2⟩ := joinSpace_cons ("UPDATE " ++ b.fromTable)
      (("SET " ++ String.intercalate ", " (b.setClauses.map (fun c => c.field ++ " = ?"))) ::
        tailParts b)
    exact ⟨b.fromTable ++ r2, by rw [hr2, String.append_assoc]⟩
  · intro hd hs hi
    obtain ⟨vs, hvs⟩ := Option.isSome_iff_exists.mp (Bool.and_elim_right hi)
    have hiI : b.isInsert = true := Bool.and_elim_left hi
    simp only [buildQuery, headParts, hd, hs, hiI, hvs, Option.isSome_some,
      Bool.and_self, Bool.and_true, if_true, if_false,
      Bool.false_eq_true, lt_irrefl, List.cons_append, List.nil_append]
    obtain ⟨r2, hr2⟩ := joinSpace_cons
      ("INSERT INTO " ++ b.fromTable ++ " (" ++ String.intercalate ", " (vs.map Prod.fst) ++
        ") VALUES (" ++ String.intercalate ", " (vs.map (fun _ => "?")) ++ ")")
      (tailParts b)
    refine ⟨b.fromTable ++ " (" ++ String.intercalate ", " (vs.map Prod.fst) ++
      ") VALUES (" ++ String.intercalate ", " (vs.map (fun _ => "?")) ++ ")" ++ r2, ?_⟩
    rw [hr2]
    simp [String.append_assoc]
  · intro hd hs hi
    simp only [buildQuery, headParts, hd, hs, hi, if_true, if_false,
      Bool.false_eq_true, lt_irrefl, List.cons_append, List.nil_append]
    obtain ⟨r2, hr2⟩ := joinSpace_cons
      ("SELECT " ++ (if 0 < b.selectClause.length then String.intercalate ", " b.selectClause else "*"))
      (("FROM " ++ b.fromTable) :: tailParts b)
    exact ⟨(if 0 < b.selectClause.length then String.intercalate ", " b.selectClause else "*") ++ r2,
      by rw [hr2, String.append_assoc]⟩

/-- Witness for C3 as amended: a delete-marked builder on table t2. -/
theorem C3_marker_precedence_witness :
    (QueryBuilder.build (QueryBuilder.delete (QueryBuilder.from_ QueryBuilder.init "t2")) =
      .ok ⟨"DELETE FROM t2", []⟩) ∧
    (QueryBuilder.delete (QueryBuilder.from_ QueryBuilder.init "t2")).isDelete = true ∧
    (∃ rest, ("DELETE FROM t2" : String) = "DELETE FROM " ++ rest) :=
  ⟨rfl, rfl,
   (C3_marker_precedence (QueryBuilder.delete (QueryBuilder.from_ QueryBuilder.init "t2"))
     ⟨"DELETE FROM t2", []⟩ rfl).1 rfl⟩

/-- C8. Malformed builder usage fails with the configuration-error kind
(a DatabaseError tagged with operation query_builder) before any SQL is
produced or executed: whereIn with an empty list fails on the call itself
(its Except value is an error before build is ever reached), limit and
offset fail for every negative argument, and build fails when no table
was specified. The builder performs no I/O, so every failure precedes
execution. -/
theorem C8_configuration_errors :
    (∀ (b : QueryBuilder) (f : String), b.whereIn f [] = .error emptyInError) ∧
    (∀ (b : QueryBuilder) (v : Int), v < 0 → b.limit v = .error limitError) ∧
    (∀ (b : QueryBuilder) (v : Int), v < 0 → b.offset v = .error offsetError) ∧
    (∀ b : QueryBuilder, b.fromTable = "" → b.build = .error noFromError) ∧
    emptyInError.operation = "query_builder" ∧
    limitError.operation = "query_builder" ∧
    offsetError.operation = "query_builder" ∧
    noFromError.operation = "query_builder" := by
  refine ⟨?_, ?_, ?_, ?_, rfl, rfl, rfl, rfl⟩
  · intro b f
    simp [QueryBuilder.whereIn]
  · intro b v hv
    simp [QueryBuilder.limit, hv]
  · intro b v hv
    simp [QueryBuilder.offset, hv]
  · intro b hb
    simp [QueryBuilder.build, hb]

/-- Witness for C8 at concrete inputs, including limit and offset at -1
and build on a pristine builder with no table. -/
theorem C8_configuration_errors_witness :
    QueryBuilder.whereIn QueryBuilder.init "key" [] = .error emptyInError ∧
    (-1 : Int) < 0 ∧
    QueryBuilder.limit QueryBuilder.init (-1) = .error limitError ∧
    QueryBuilder.offset QueryBuilder.init (-1) = .error offsetError ∧
    QueryBuilder.init.fromTable = "" ∧
    QueryBuilder.build QueryBuilder.init = .error noFromError :=
  ⟨C8_configuration_errors.1 QueryBuilder.init "key",
   by decide,
   C8_configuration_errors.2.1 QueryBuilder.init (-1) (by decide),
   C8_configuration_errors.2.2.1 QueryBuilder.init (-1) (by decide),
   rfl,
   C8_configuration_errors.2.2.2.1 QueryBuilder.init rfl⟩

/-! ## JSON.parse

A recursive-descent parser for the JSON grammar as read by JSON.parse:
whitespace-tolerant, strings with the standard escapes, objects built
with last-occurrence-wins duplicate-key semantics. Numbers are limited to
optionally signed integer literals (float syntax is outside the model,
see the module comment) and leading-zero forms are not rejected. Fuel
counts the recursion depth; the top level supplies length + 1 fuel, which
is sufficient because every recursive step first consumes at least one
character. -/

/-- Decimal digit test. -/
def isDigitChar (c : Char) : Bool := 48 ≤ c.toNat && c.toNat ≤ 57

/-- Numeric value of a decimal digit character. -/
def digitVal (c : Char) : Nat := c.toNat - 48

/-- Value of a hexadecimal digit character (either case), if any. -/
def hexVal (c : Char) : Option Nat :=
  if 48 ≤ c.toNat && c.toNat ≤ 57 then some (c.toNat - 48)
  else if 97 ≤ c.toNat && c.toNat ≤ 102 then some (c.toNat - 87)
  else if 65 ≤ c.toNat && c.toNat ≤ 70 then some (c.toNat - 55)
  else none

/-- The four JSON whitespace characters. -/
def isWsChar (c : Char) : Bool :=
  c.toNat = 32 || c.toNat = 9 || c.toNat = 10 || c.toNat = 13

/-- Skip leading JSON whitespace. -/
def skipWs (cs : List Char) : List Char := cs.dropWhile isWsChar

/-- Whether a character stream does not begin with a digit (the
boundary condition after a number literal). -/
def headNotDigit : List Char → Bool
  | [] => true
  | c :: _ => !(isDigitChar c)

/-- Decode the four hex digits of a unicode escape. -/
def parseHex4 : List Char → Option (Char × List Char)
  | h1 :: h2 :: h3 :: h4 :: rs2 =>
    match hexVal h1, hexVal h2, hexVal h3, hexVal h4 with
    | some a, some b, some c2, some d =>
        some (Char.ofNat (((a * 16 + b) * 16 + c2) * 16 + d), rs2)
    | _, _, _, _ => none
  | _ => none

/-- Decode one escape sequence after a backslash. -/
def parseEscChar : List Char → Option (Char × List Char)
  | [] => none
  | e :: rs =>
    if e = '"' then some ('"', rs)
    else if e = '\\' then some ('\\', rs)
    else if e = '/' then some ('/', rs)
    else if e = 'b' then some ('\x08', rs)
    else if e = 'f' then some ('\x0c', rs)
    else if e = 'n' then some ('\n', rs)
    else if e = 'r' then some ('\r', rs)
    else if e = 't' then some ('\t', rs)
    else if e = 'u' then parseHex4 rs
    else none

/-- Body of a JSON string literal after the opening quote: returns the
decoded characters and the stream after the closing quote. Fuel bounds
the number of decoded characters; every step consumes at least one input
character, so callers pass the stream length as fuel. -/
def parseStrAux : Nat → List Char → Option (List Char × List Char)
  | 0, _ => none
  | f + 1, cs =>
    match cs with
    | [] => none
    | c :: rest =>
      if c = '\\' then
        match parseEscChar rest with
        | some (d, rs) => (parseStrAux f rs).map (fun p => (d :: p.1, p.2))
        | none => none
      else if c = '"' then some ([], rest)
      else if c.toNat < 32 then none
      else (parseStrAux f rest).map (fun p => (c :: p.1, p.2))

/-- Consume a maximal run of digits, folding them onto an accumulator. -/
def parseDigitsAux : Nat → List Char → Nat × List Char
  | acc, [] => (acc, [])
  | acc, c :: cs =>
    if isDigitChar c then parseDigitsAux (acc * 10 + digitVal c) cs else (acc, c :: cs)

/-- An optionally signed integer literal. -/
def parseNum (cs : List Char) : Option (Int × List Char) :=
  match cs with
  | [] => none
  | c :: cs2 =>
    if c = '-' then
      match cs2 with
      | [] => none
      | d :: _ =>
        if isDigitChar d then
          some (-(Int.ofNat (parseDigitsAux 0 cs2).1), (parseDigitsAux 0 cs2).2)
        else none
    else if isDigitChar c then
      some (Int.ofNat (parseDigitsAux 0 cs).1, (parseDigitsAux 0 cs).2)
    else none

/-- JSON.parse duplicate-key handling when a member list is rebuilt from
the left: the first occurrence fixes the position, the last fixes the
value, so a key already present in the parsed tail keeps the tail value
and moves to the front. -/
def objPrepend (k : String) (v : Json) (o : JsonObj) : JsonObj :=
  match o.getField k with
  | some w => .cons k w (o.delField k)
  | none => .cons k v o

mutual

/-- One JSON value, consuming leading whitespace. -/
def parseVal : Nat → List Char → Option (Json × List Char)
  | 0, _ => none
  | f + 1, cs =>
    match skipWs cs with
    | [] => none
    | c :: rest =>
      if c = 'n' then
        match rest with
        | 'u' :: 'l' :: 'l' :: rs => some (.null, rs)
        | _ => none
      else if c = 't' then
        match rest with
        | 'r' :: 'u' :: 'e' :: rs => some (.bool true, rs)
        | _ => none
      else if c = 'f' then
        match rest with
        | 'a' :: 'l' :: 's' :: 'e' :: rs => some (.bool false, rs)
        | _ => none
      else if c = '"' then
        match parseStrAux rest.length rest with
        | some (chars, rs) => some (.str ⟨chars⟩, rs)
        | none => none
      else if c = '[' then
        match skipWs rest with
        | [] => none
        | c2 :: rs =>
          if c2 = ']' then some (.arr .nil, rs)
          else
            match parseArrItems f (c2 :: rs) with
            | some (xs, rs2) => some (.arr xs, rs2)
            | none => none
      else if c = '\x7b' then
        match skipWs rest with
        | [] => none
        | c2 :: rs =>
          if c2 = '\x7d' then some (.obj .nil, rs)
          else
            match parseObjItems f (c2 :: rs) with
            | some (o, rs2) => some (.obj o, rs2)
            | none => none
      else
        match parseNum (c :: rest) with
        | some (n, rs) => some (.num n, rs)
        | none => none

/-- One or more comma-separated array items up to the closing bracket. -/
def parseArrItems : Nat → List Char → Option (JsonArr × List Char)
  | 0, _ => none
  | f + 1, cs =>
    match parseVal f cs with
    | some (v, rest) =>
      match skipWs rest with
      | [] => none
      | c :: rs =>
        if c = ',' then
          match parseArrItems f rs with
          | some (xs, rs2) => some (.cons v xs, rs2)
          | none => none
        else if c = ']' then some (.cons v .nil, rs)
        else none
    | none => none

/-- One or more comma-separated object members up to the closing brace. -/
def parseObjItems : Nat → List Char → Option (JsonObj × List Char)
  | 0, _ => none
  | f + 1, cs =>
    match skipWs cs with
    | [] => none
    | c :: rest =>
      if c = '"' then
        match parseStrAux rest.length rest with
        | some (kchars, rs) =>
          match skipWs rs with
          | [] => none
          | c2 :: rs2 =>
            if c2 = ':' then
              match parseVal f rs2 with
              | some (v, rs3) =>
                match skipWs rs3 with
                | [] => none
                | c3 :: rs4 =>
                  if c3 = ',' then
                    match parseObjItems f rs4 with
                    | some (o, rs5) => some (objPrepend ⟨kchars⟩ v o, rs5)
                    | none => none
                  else if c3 = '\x7d' then some (.cons ⟨kchars⟩ v .nil, rs4)
                  else none
              | none => none
            else none
        | none => none
      else none

end

/-- JSON.parse: parse one value and require only whitespace to follow. -/
def Json.parse (s : String) : Option Json :=
  match parseVal (s.length + 1) s.data with
  | some (v, rest) => if (skipWs rest).isEmpty then some v else none
  | none => none

/-! ## Round-trip lemmas: parse inverts stringify -/

/-- Digit characters parse back to their value. -/
theorem isDigitChar_ofNat (d : Nat) (h : d < 10) :
    isDigitChar (Char.ofNat (48 + d)) = true ∧ digitVal (Char.ofNat (48 + d)) = d := by
  interval_cases d <;> exact ⟨by decide, by decide⟩

/-- Hexadecimal digit characters parse back to their value. -/
theorem hexVal_hexChar (m : Nat) (h : m < 16) : hexVal (hexChar m) = some m := by
  interval_cases m <;> decide

/-- A digit character is not whitespace and none of the characters the
value dispatcher inspects first. -/
theorem digit_props (c : Char) (h : isDigitChar c = true) :
    isWsChar c = false ∧ c ≠ 'n' ∧ c ≠ 't' ∧ c ≠ 'f' ∧ c ≠ '"' ∧ c ≠ '[' ∧
      c ≠ '\x7b' ∧ c ≠ ']' ∧ c ≠ '\x7d' ∧ c ≠ ',' ∧ c ≠ '-' := by
  refine ⟨?_, ?_, ?_, ?_, ?_, ?_, ?_, ?_, ?_, ?_, ?_⟩
  · simp only [isDigitChar, Bool.and_eq_true, decide_eq_true_eq] at h
    simp only [isWsChar, Bool.or_eq_false_iff, decide_eq_false_iff_not]
    omega
  all_goals
    intro he
  all_goals
    rw [he] at h
  all_goals
    exact absurd h (by decide)

/-- Skipping whitespace passes over nothing when the head is not whitespace. -/
theorem skipWs_not (c : Char) (t : List Char) (h : isWsChar c = false) :
    skipWs (c :: t) = c :: t := by
  simp [skipWs, List.dropWhile_cons, h]

/-- parseDigitsAux folds an all-digit prefix onto the accumulator. -/
theorem parseDigitsAux_append (A : List Char) :
    ∀ acc rest, (∀ c ∈ A, isDigitChar c = true) →
      parseDigitsAux acc (A ++ rest) =
        parseDigitsAux (A.foldl (fun a c => a * 10 + digitVal c) acc) rest := by
  induction A with
  | nil => intro acc rest _; simp
  | cons c A ih =>
    intro acc rest hA
    have hc : isDigitChar c = true := hA c (by simp)
    simp only [List.cons_append, parseDigitsAux, hc, if_true, List.foldl_cons]
    exact ih _ rest (fun x hx => hA x (by simp [hx]))

/-- parseDigitsAux stops at a non-digit boundary. -/
theorem parseDigitsAux_stop (acc : Nat) (rest : List Char) (h : headNotDigit rest = true) :
    parseDigitsAux acc rest = (acc, rest) := by
  cases rest with
  | nil => rfl
  | cons c t =>
    simp only [headNotDigit, Bool.not_eq_true'] at h
    simp [parseDigitsAux, h]

/-- Every character produced by natDigitsAux is a digit. -/
theorem natDigitsAux_digits (fuel : Nat) :
    ∀ n, ∀ c ∈ natDigitsAux fuel n, isDigitChar c = true := by
  induction fuel with
  | zero => intro n c hc; simp [natDigitsAux] at hc
  | succ fuel ih =>
    intro n c hc
    by_cases hn : n = 0
    · simp [natDigitsAux, hn] at hc
    · simp only [natDigitsAux, hn, if_false, List.mem_append, List.mem_singleton] at hc
      rcases hc with hc | hc
      · exact ih _ c hc
      · subst hc
        exact (isDigitChar_ofNat (n % 10) (Nat.mod_lt n (by omega))).1

/-- natDigitsAux of zero is empty at any fuel. -/
theorem natDigitsAux_zero (fuel : Nat) : natDigitsAux fuel 0 = [] := by
  cases fuel <;> simp [natDigitsAux]

/-- Folding the digits of n onto an accumulator recovers n positionally. -/
theorem natDigitsAux_foldl (fuel : Nat) :
    ∀ n acc, n ≤ fuel → n ≠ 0 →
      (natDigitsAux fuel n).foldl (fun a c => a * 10 + digitVal c) acc =
        acc * 10 ^ (natDigitsAux fuel n).length + n := by
  induction fuel with
  | zero => intro n acc hle hn; omega
  | succ fuel ih =>
    intro n acc hle hn
    simp only [natDigitsAux, hn, if_false]
    by_cases h10 : n / 10 = 0
    · have hmod : n % 10 = n := by omega
      rw [h10, natDigitsAux_zero]
      simp only [List.nil_append, List.foldl_cons, List.foldl_nil, List.length_cons,
        List.length_nil, zero_add, pow_one, hmod,
        (isDigitChar_ofNat n (by omega)).2]
    · have hdiv : n / 10 ≤ fuel := by
        have := Nat.div_lt_self (by omega : 0 < n) (by omega : 1 < 10)
        omega
      rw [List.foldl_append]
      simp only [List.foldl_cons, List.foldl_nil]
      rw [ih (n / 10) acc hdiv h10, (isDigitChar_ofNat (n % 10) (Nat.mod_lt n (by omega))).2]
      rw [List.length_append, List.length_singleton, pow_succ]
      calc (acc * 10 ^ (natDigitsAux fuel (n / 10)).length + n / 10) * 10 + n % 10
          = acc * (10 ^ (natDigitsAux fuel (n / 10)).length * 10) +
              (10 * (n / 10) + n % 10) := by ring
        _ = acc * (10 ^ (natDigitsAux fuel (n / 10)).length * 10) + n := by
              rw [Nat.div_add_mod]

/-- Every character of natChars is a digit. -/
theorem natChars_digits (n : Nat) : ∀ c ∈ natChars n, isDigitChar c = true := by
  intro c hc
  unfold natChars at hc
  split at hc
  · simp at hc
    subst hc
    decide
  · exact natDigitsAux_digits n n c hc

/-- natChars never produces the empty list. -/
theorem natChars_ne_nil (n : Nat) : natChars n ≠ [] := by
  unfold natChars
  split
  · simp
  · rename_i hn
    cases n with
    | zero => exact absurd rfl hn
    | succ m =>
      simp only [natDigitsAux, hn, if_false]
      simp

/-- natChars decomposes as a digit character followed by a tail. -/
theorem natChars_cons (n : Nat) :
    ∃ c t, natChars n = c :: t ∧ isDigitChar c = true := by
  cases h : natChars n with
  | nil => exact absurd h (natChars_ne_nil n)
  | cons c t =>
    refine ⟨c, t, rfl, ?_⟩
    exact natChars_digits n c (by rw [h]; simp)

/-- Parsing the digits of a natural number recovers it. -/
theorem parseDigitsAux_natChars (n : Nat) (rest : List Char)
    (hrest : headNotDigit rest = true) :
    parseDigitsAux 0 (natChars n ++ rest) = (n, rest) := by
  by_cases hn : n = 0
  · subst hn
    rw [show natChars 0 = ['0'] from rfl]
    rw [parseDigitsAux_append ['0'] 0 rest (by intro c hc; simp at hc; subst hc; decide)]
    rw [show List.foldl (fun a c => a * 10 + digitVal c) 0 ['0'] = 0 from rfl]
    exact parseDigitsAux_stop 0 rest hrest
  · simp only [natChars, hn, if_false]
    rw [parseDigitsAux_append _ _ _ (natDigitsAux_digits n n)]
    rw [natDigitsAux_foldl n n 0 le_rfl hn]
    simp only [zero_mul, zero_add]
    exact parseDigitsAux_stop n rest hrest

/-- Parsing the serialization of an integer recovers it, up to a
non-digit boundary. -/
theorem parseNum_intChars (n : Int) (rest : List Char)
    (hrest : headNotDigit rest = true) :
    parseNum (intChars n ++ rest) = some (n, rest) := by
  by_cases hn : n < 0
  · simp only [intChars, hn, if_true, List.cons_append]
    obtain ⟨c, t, hct, hcd⟩ := natChars_cons n.natAbs
    rw [hct]
    simp only [parseNum, List.cons_append, if_true]
    rw [if_pos hcd]
    rw [show (c :: (t ++ rest)) = natChars n.natAbs ++ rest by rw [hct]; simp]
    rw [parseDigitsAux_natChars n.natAbs rest hrest]
    have : -(Int.ofNat n.natAbs) = n := by
      simp only [Int.ofNat_eq_coe]
      omega
    rw [this]
  · simp only [intChars, hn, if_false]
    obtain ⟨c, t, hct, hcd⟩ := natChars_cons n.natAbs
    rw [hct]
    have hprops := digit_props c hcd
    simp only [parseNum, List.cons_append]
    rw [if_neg hprops.2.2.2.2.2.2.2.2.2.2, if_pos hcd]
    rw [show (c :: (t ++ rest)) = natChars n.natAbs ++ rest by rw [hct]; simp]
    rw [parseDigitsAux_natChars n.natAbs rest hrest]
    have : Int.ofNat n.natAbs = n := by
      simp only [Int.ofNat_eq_coe]
      omega
    rw [this]


/-- Parsing an escaped string body recovers the original characters,
given fuel beyond the decoded length. -/
theorem parseStrAux_esc (l : List Char) :
    ∀ f rest, l.length + 1 ≤ f →
      parseStrAux f ((l.map escChar).flatten ++ '"' :: rest) = some (l, rest) := by
  induction l with
  | nil =>
    intro f rest hf
    cases f with
    | zero => omega
    | succ f2 => simp [parseStrAux]
  | cons c l ih =>
    intro f rest hf
    cases f with
    | zero => omega
    | succ f2 =>
      have hfl : l.length + 1 ≤ f2 := by
        simp only [List.length_cons] at hf
        omega
      have hih := ih f2 rest hfl
      simp only [List.map_cons, List.flatten_cons, List.append_assoc]
      by_cases h1 : c = '"'
      · subst h1
        simp [escChar, parseStrAux, parseEscChar, hih]
      · by_cases h2 : c = '\\'
        · subst h2
          simp [escChar, parseStrAux, parseEscChar, hih]
        · by_cases h3 : c = '\x08'
          · subst h3
            simp [escChar, parseStrAux, parseEscChar, hih]
          · by_cases h4 : c = '\x0c'
            · subst h4
              simp [escChar, parseStrAux, parseEscChar, hih]
            · by_cases h5 : c = '\n'
              · subst h5
                simp [escChar, parseStrAux, parseEscChar, hih]
              · by_cases h6 : c = '\r'
                · subst h6
                  simp [escChar, parseStrAux, parseEscChar, hih]
                · by_cases h7 : c = '\t'
                  · subst h7
                    simp [escChar, parseStrAux, parseEscChar, hih]
                  · by_cases h8 : c.toNat < 32
                    · have hhi : c.toNat / 16 < 16 := by omega
                      have hlo : c.toNat % 16 < 16 := by omega
                      simp only [escChar, h1, h2, h3, h4, h5, h6, h7, h8, if_false, if_true,
                        List.cons_append, List.nil_append]
                      simp only [parseStrAux, parseEscChar, parseHex4, if_pos rfl,
                        hexVal_hexChar _ hhi, hexVal_hexChar _ hlo,
                        show hexVal '0' = some 0 from rfl,
                        show ('u' = '"') = False by simp,
                        show ('u' = '\\') = False by simp,
                        show ('u' = '/') = False by simp,
                        show ('u' = 'b') = False by simp,
                        show ('u' = 'f') = False by simp,
                        show ('u' = 'n') = False by simp,
                        show ('u' = 'r') = False by simp,
                        show ('u' = 't') = False by simp,
                        if_false]
                      simp only [if_true, hih, Option.map_some]
                      have harith :
                          ((0 * 16 + 0) * 16 + c.toNat / 16) * 16 + c.toNat % 16 = c.toNat := by
                        omega
                      rw [harith, Char.ofNat_toNat]
                      rfl
                    · have he : escChar c = [c] := by
                        simp [escChar, h1, h2, h3, h4, h5, h6, h7, h8]
                      rw [he]
                      simp only [List.cons_append, List.nil_append]
                      simp only [parseStrAux, h1, h2, h8, if_false]
                      rw [hih]
                      rfl

/-! ## Well-formed values and size measures -/

mutual

/-- Well-formed JSON value: every object has distinct keys, recursively.
JavaScript objects always satisfy this; the inductive type is wider. -/
def jsonWF : Json → Bool
  | .null => true
  | .bool _ => true
  | .num _ => true
  | .str _ => true
  | .arr xs => arrWF xs
  | .obj o => objWF o

/-- Elementwise well-formedness of an array. -/
def arrWF : JsonArr → Bool
  | .nil => true
  | .cons x xs => jsonWF x && arrWF xs

/-- Distinct keys and well-formed values in an object. -/
def objWF : JsonObj → Bool
  | .nil => true
  | .cons k v tl => !(tl.hasField k) && jsonWF v && objWF tl

end

mutual

/-- Fuel needed by parseVal on the serialization of a value. -/
def jsize : Json → Nat
  | .null => 1
  | .bool _ => 1
  | .num _ => 1
  | .str _ => 1
  | .arr xs => 1 + asize xs
  | .obj o => 1 + osize o

/-- Fuel needed by parseArrItems on serialized items. -/
def asize : JsonArr → Nat
  | .nil => 0
  | .cons x xs => 1 + jsize x + asize xs

/-- Fuel needed by parseObjItems on serialized members. -/
def osize : JsonObj → Nat
  | .nil => 0
  | .cons _ v tl => 1 + jsize v + osize tl

end

/-- Values need at least one unit of fuel. -/
theorem jsize_pos (v : Json) : 1 ≤ jsize v := by
  cases v <;> simp [jsize]

/-- Escaping a character produces at least one character. -/
theorem escChar_len (c : Char) : 1 ≤ (escChar c).length := by
  simp only [escChar]
  split_ifs <;> simp

/-- Escaping does not shorten a character list. -/
theorem escFlatten_len (l : List Char) : l.length ≤ ((l.map escChar).flatten).length := by
  induction l with
  | nil => simp
  | cons c l ih =>
    have := escChar_len c
    simp only [List.map_cons, List.flatten_cons, List.length_append, List.length_cons]
    omega

/-- The serialization of an integer is nonempty. -/
theorem intChars_len (n : Int) : 1 ≤ (intChars n).length := by
  unfold intChars
  split
  · simp
  · have := natChars_ne_nil n.natAbs
    cases h : natChars n.natAbs with
    | nil => exact absurd h this
    | cons c t => simp [h]

/-- The serialization of any value begins with a character that is not
whitespace and not a closing bracket or brace. -/
theorem strChars_cons (v : Json) :
    ∃ c t, strChars v = c :: t ∧ isWsChar c = false ∧ c ≠ ']' ∧ c ≠ '\x7d' := by
  cases v with
  | null => exact ⟨'n', _, rfl, by decide, by decide, by decide⟩
  | bool b => cases b
               <;> exact ⟨_, _, rfl, by decide, by decide, by decide⟩
  | num n =>
    rw [show strChars (.num n) = intChars n from rfl]
    unfold intChars
    split
    · exact ⟨'-', _, rfl, by decide, by decide, by decide⟩
    · obtain ⟨c, t, hct, hcd⟩ := natChars_cons n.natAbs
      have hprops := digit_props c hcd
      exact ⟨c, t, hct, hprops.1, hprops.2.2.2.2.2.2.2.1, hprops.2.2.2.2.2.2.2.2.1⟩
  | str s => exact ⟨'"', _, rfl, by decide, by decide, by decide⟩
  | arr a => cases a
              <;> exact ⟨'[', _, rfl, by decide, by decide, by decide⟩
  | obj o => cases o
              <;> exact ⟨'\x7b', _, rfl, by decide, by decide, by decide⟩

/-- Prepending an absent key is a plain cons. -/
theorem objPrepend_absent (k : String) (v : Json) (o : JsonObj)
    (h : o.getField k = none) : objPrepend k v o = .cons k v o := by
  simp [objPrepend, h]

mutual

/-- The fuel needed for a value is at most its serialized length. -/
theorem jsize_le_len : ∀ v : Json, jsize v ≤ (strChars v).length := by
  intro v
  cases v with
  | null => simp [jsize, strChars, nullChars]
  | bool b => cases b <;> simp [jsize, strChars, trueChars, falseChars]
  | num n =>
    have := intChars_len n
    rw [show strChars (.num n) = intChars n from rfl]
    simp only [jsize]
    omega
  | str s =>
    simp only [jsize, strChars, escString, List.length_cons, List.length_append]
    omega
  | arr a =>
    cases a with
    | nil => simp [jsize, asize, strChars]
    | cons x xs =>
      have h := asize_le_len (.cons x xs)
      simp only [strArrItems, List.length_cons, List.length_append] at h
      simp only [jsize, strChars, List.length_cons, List.length_append]
      omega
  | obj o =>
    cases o with
    | nil => simp [jsize, osize, strChars]
    | cons k v kvs =>
      have h := osize_le_len (.cons k v kvs)
      simp only [strObjItems, List.length_cons, List.length_append] at h
      simp only [jsize, strChars, List.length_cons, List.length_append]
      omega

/-- The fuel needed for array items is below the serialized tail length. -/
theorem asize_le_len : ∀ a : JsonArr, asize a + 1 ≤ (strArrItems a).length := by
  intro a
  cases a with
  | nil => simp [asize, strArrItems]
  | cons x xs =>
    have h1 := jsize_le_len x
    have h2 := asize_le_len xs
    simp only [asize, strArrItems, List.length_cons, List.length_append]
    omega

/-- The fuel needed for object members is below the serialized tail length. -/
theorem osize_le_len : ∀ o : JsonObj, osize o + 1 ≤ (strObjItems o).length := by
  intro o
  cases o with
  | nil => simp [osize, strObjItems]
  | cons k v tl =>
    have h1 := jsize_le_len v
    have h2 := osize_le_len tl
    simp only [osize, strObjItems, List.length_cons, List.length_append]
    omega

end

/-- Unfolding of parseVal on a quote head. -/
theorem parseVal_quote (f : Nat) (t : List Char) :
    parseVal (f + 1) ('"' :: t) =
      match parseStrAux t.length t with
      | some (chars, rs) => some (.str ⟨chars⟩, rs)
      | none => none := rfl

/-- Unfolding of parseVal on a bracket head. -/
theorem parseVal_lbrack (f : Nat) (t : List Char) :
    parseVal (f + 1) ('[' :: t) =
      (match skipWs t with
       | [] => none
       | c2 :: rs =>
         if c2 = ']' then some (.arr .nil, rs)
         else
           match parseArrItems f (c2 :: rs) with
           | some (xs, rs2) => some (.arr xs, rs2)
           | none => none) := rfl

/-- Unfolding of parseVal on a brace head. -/
theorem parseVal_lbrace (f : Nat) (t : List Char) :
    parseVal (f + 1) ('\x7b' :: t) =
      (match skipWs t with
       | [] => none
       | c2 :: rs =>
         if c2 = '\x7d' then some (.obj .nil, rs)
         else
           match parseObjItems f (c2 :: rs) with
           | some (o, rs2) => some (.obj o, rs2)
           | none => none) := rfl

/-- parseVal falls through to the number branch on any other head. -/
theorem parseVal_default (f : Nat) (c : Char) (t : List Char)
    (h0 : isWsChar c = false) (h1 : c ≠ 'n') (h2 : c ≠ 't') (h3 : c ≠ 'f')
    (h4 : c ≠ '"') (h5 : c ≠ '[') (h6 : c ≠ '\x7b') :
    parseVal (f + 1) (c :: t) =
      match parseNum (c :: t) with
      | some (n, rs) => some (Json.num n, rs)
      | none => none := by
  simp [parseVal, skipWs_not c t h0, h1, h2, h3, h4, h5, h6]

/-- One-step unfolding of parseArrItems. -/
theorem parseArrItems_succ (f : Nat) (cs : List Char) :
    parseArrItems (f + 1) cs =
      (match parseVal f cs with
       | some (v, rest) =>
         match skipWs rest with
         | [] => none
         | c :: rs =>
           if c = ',' then
             match parseArrItems f rs with
             | some (xs, rs2) => some (.cons v xs, rs2)
             | none => none
           else if c = ']' then some (.cons v .nil, rs)
           else none
       | none => none) := rfl

/-- One-step unfolding of parseObjItems. -/
theorem parseObjItems_succ (f : Nat) (cs : List Char) :
    parseObjItems (f + 1) cs =
      (match skipWs cs with
       | [] => none
       | c :: rest =>
         if c = '"' then
           match parseStrAux rest.length rest with
           | some (kchars, rs) =>
             match skipWs rs with
             | [] => none
             | c2 :: rs2 =>
               if c2 = ':' then
                 match parseVal f rs2 with
                 | some (v, rs3) =>
                   match skipWs rs3 with
                   | [] => none
                   | c3 :: rs4 =>
                     if c3 = ',' then
                       match parseObjItems f rs4 with
                       | some (o, rs5) => some (objPrepend ⟨kchars⟩ v o, rs5)
                       | none => none
                     else if c3 = '\x7d' then some (.cons ⟨kchars⟩ v .nil, rs4)
                     else none
                 | none => none
               else none
           | none => none
         else none) := rfl

/-- The serialized tail of an array or object item list starts with a
separator or closing character, which is not a digit. -/
theorem strArrItems_headNotDigit (xs : JsonArr) (rest : List Char) :
    headNotDigit (strArrItems xs ++ rest) = true := by
  cases xs <;> simp [strArrItems, headNotDigit, isDigitChar]

/-- Same boundary property for object member tails. -/
theorem strObjItems_headNotDigit (kvs : JsonObj) (rest : List Char) :
    headNotDigit (strObjItems kvs ++ rest) = true := by
  cases kvs <;> simp [strObjItems, headNotDigit, isDigitChar]

/-- Unfolding of parseObjItems on a quote head. -/
theorem parseObjItems_quote (f : Nat) (t : List Char) :
    parseObjItems (f + 1) ('"' :: t) =
      (match parseStrAux t.length t with
       | some (kchars, rs) =>
         match skipWs rs with
         | [] => none
         | c2 :: rs2 =>
           if c2 = ':' then
             match parseVal f rs2 with
             | some (v, rs3) =>
               match skipWs rs3 with
               | [] => none
               | c3 :: rs4 =>
                 if c3 = ',' then
                   match parseObjItems f rs4 with
                   | some (o, rs5) => some (objPrepend ⟨kchars⟩ v o, rs5)
                   | none => none
                 else if c3 = '\x7d' then some (.cons ⟨kchars⟩ v .nil, rs4)
                 else none
             | none => none
           else none
       | none => none) := rfl

/-- Main round-trip induction: with sufficient fuel, parsing the
serialization of a well-formed value (or item/member tail) succeeds and
returns exactly the value and the untouched remainder. -/
theorem parse_round (f : Nat) :
    (∀ (v : Json) (rest : List Char), jsize v ≤ f → jsonWF v = true →
      headNotDigit rest = true → parseVal f (strChars v ++ rest) = some (v, rest)) ∧
    (∀ (x : Json) (xs : JsonArr) (rest : List Char), asize (.cons x xs) ≤ f →
      arrWF (.cons x xs) = true →
      parseArrItems f (strChars x ++ (strArrItems xs ++ rest)) = some (.cons x xs, rest)) ∧
    (∀ (k : String) (v : Json) (kvs : JsonObj) (rest : List Char), osize (.cons k v kvs) ≤ f →
      objWF (.cons k v kvs) = true →
      parseObjItems f (escString k ++ (':' :: (strChars v ++ (strObjItems kvs ++ rest)))) =
        some (.cons k v kvs, rest)) := by
  induction f with
  | zero =>
    refine ⟨?_, ?_, ?_⟩
    · intro v rest hsz _ _
      have := jsize_pos v
      omega
    · intro x xs rest hsz _
      simp only [asize] at hsz
      omega
    · intro k v kvs rest hsz _
      simp only [osize] at hsz
      omega
  | succ f ih =>
    obtain ⟨ih1, ih2, ih3⟩ := ih
    refine ⟨?_, ?_, ?_⟩
    · -- values
      intro v rest hsz hwf hrest
      cases v with
      | null => rfl
      | bool b => cases b <;> rfl
      | num n =>
        by_cases hneg : n < 0
        · have hic : strChars (.num n) = '-' :: natChars n.natAbs := by
            simp [strChars, intChars, hneg]
          rw [hic]
          simp only [List.cons_append]
          rw [parseVal_default f '-' _ (by decide) (by decide) (by decide) (by decide)
            (by decide) (by decide) (by decide)]
          rw [show '-' :: (natChars n.natAbs ++ rest) = intChars n ++ rest by
            simp [intChars, hneg]]
          rw [parseNum_intChars n rest hrest]
        · obtain ⟨c, t, hct, hcd⟩ := natChars_cons n.natAbs
          have hprops := digit_props c hcd
          have hic : strChars (.num n) = c :: t := by
            simp [strChars, intChars, hneg, hct]
          rw [hic]
          simp only [List.cons_append]
          rw [parseVal_default f c _ hprops.1 hprops.2.1 hprops.2.2.1 hprops.2.2.2.1
            hprops.2.2.2.2.1 hprops.2.2.2.2.2.1 hprops.2.2.2.2.2.2.1]
          rw [show c :: (t ++ rest) = intChars n ++ rest by simp [intChars, hneg, hct]]
          rw [parseNum_intChars n rest hrest]
      | str s =>
        have hstream : strChars (.str s) ++ rest =
            '"' :: ((s.data.map escChar).flatten ++ '"' :: rest) := by
          simp [strChars, escString]
        rw [hstream, parseVal_quote]
        have hlen : s.data.length + 1 ≤
            ((s.data.map escChar).flatten ++ '"' :: rest).length := by
          have := escFlatten_len s.data
          simp only [List.length_append, List.length_cons]
          omega
        rw [parseStrAux_esc s.data _ rest hlen]
      | arr a =>
        cases a with
        | nil => rfl
        | cons x xs =>
          have hW : arrWF (.cons x xs) = true := by simpa [jsonWF] using hwf
          have hsz2 : asize (.cons x xs) ≤ f := by
            simp only [jsize] at hsz
            omega
          obtain ⟨cx, tx, hct, hws, hnb, _⟩ := strChars_cons x
          have hstream : strChars (.arr (.cons x xs)) ++ rest =
              '[' :: (strChars x ++ (strArrItems xs ++ rest)) := by
            simp [strChars, List.append_assoc]
          rw [hstream, parseVal_lbrack, hct]
          simp only [List.cons_append]
          rw [skipWs_not _ _ hws]
          show (if cx = ']' then some (Json.arr JsonArr.nil, tx ++ (strArrItems xs ++ rest))
            else
              match parseArrItems f (cx :: (tx ++ (strArrItems xs ++ rest))) with
              | some (xs2, rs2) => some (Json.arr xs2, rs2)
              | none => none) = _
          rw [if_neg hnb]
          rw [show cx :: (tx ++ (strArrItems xs ++ rest)) =
            strChars x ++ (strArrItems xs ++ rest) by rw [hct]; simp]
          rw [ih2 x xs rest hsz2 hW]
      | obj o =>
        cases o with
        | nil => rfl
        | cons k v kvs =>
          have hW : objWF (.cons k v kvs) = true := by simpa [jsonWF] using hwf
          have hsz2 : osize (.cons k v kvs) ≤ f := by
            simp only [jsize] at hsz
            omega
          have hstream : strChars (.obj (.cons k v kvs)) ++ rest =
              '\x7b' :: (escString k ++
                (':' :: (strChars v ++ (strObjItems kvs ++ rest)))) := by
            simp [strChars, escString, List.append_assoc]
          rw [hstream, parseVal_lbrace]
          show (match parseObjItems f (escString k ++
              (':' :: (strChars v ++ (strObjItems kvs ++ rest)))) with
            | some (o2, rs2) => some (Json.obj o2, rs2)
            | none => none) = _
          rw [ih3 k v kvs rest hsz2 hW]
    · -- array items
      intro x xs rest hsz hwf
      have hjx : jsonWF x = true := by
        simp only [arrWF, Bool.and_eq_true] at hwf
        exact hwf.1
      have hszx : jsize x ≤ f := by
        simp only [asize] at hsz
        omega
      rw [parseArrItems_succ]
      rw [ih1 x (strArrItems xs ++ rest) hszx hjx (strArrItems_headNotDigit xs rest)]
      cases xs with
      | nil => rfl
      | cons y ys =>
        have hW2 : arrWF (.cons y ys) = true := by
          simp only [arrWF, Bool.and_eq_true] at hwf ⊢
          exact hwf.2
        have hsz2 : asize (.cons y ys) ≤ f := by
          simp only [asize] at hsz ⊢
          omega
        show (match parseArrItems f ((strChars y ++ strArrItems ys) ++ rest) with
          | some (xs2, rs2) => some (JsonArr.cons x xs2, rs2)
          | none => none) = _
        rw [List.append_assoc, ih2 y ys rest hsz2 hW2]
    · -- object members
      intro k v kvs rest hsz hwf
      have hjv : jsonWF v = true := by
        simp only [objWF, Bool.and_eq_true] at hwf
        exact hwf.1.2
      have habsent : JsonObj.hasField kvs k = false := by
        simp only [objWF, Bool.and_eq_true, Bool.not_eq_true'] at hwf
        exact hwf.1.1
      have hszv : jsize v ≤ f := by
        simp only [osize] at hsz
        omega
      have hE : escString k ++ (':' :: (strChars v ++ (strObjItems kvs ++ rest))) =
          '"' :: (((k.data.map escChar).flatten ++ ['"']) ++
            (':' :: (strChars v ++ (strObjItems kvs ++ rest)))) := by
        simp [escString]
      rw [hE, parseObjItems_quote]
      rw [show ((k.data.map escChar).flatten ++ ['"']) ++
          (':' :: (strChars v ++ (strObjItems kvs ++ rest))) =
        (k.data.map escChar).flatten ++
          ('"' :: (':' :: (strChars v ++ (strObjItems kvs ++ rest)))) by
        simp [List.append_assoc]]
      have hlen : k.data.length + 1 ≤
          ((k.data.map escChar).flatten ++
            ('"' :: (':' :: (strChars v ++ (strObjItems kvs ++ rest))))).length := by
        have := escFlatten_len k.data
        simp only [List.length_append, List.length_cons]
        omega
      rw [parseStrAux_esc k.data _ _ hlen]
      show (match parseVal f (strChars v ++ (strObjItems kvs ++ rest)) with
        | some (v2, rs3) =>
          match skipWs rs3 with
          | [] => none
          | c3 :: rs4 =>
            if c3 = ',' then
              match parseObjItems f rs4 with
              | some (o, rs5) => some (objPrepend k v2 o, rs5)
              | none => none
            else if c3 = '\x7d' then some (.cons k v2 .nil, rs4)
            else none
        | none => none) = _
      rw [ih1 v (strObjItems kvs ++ rest) hszv hjv (strObjItems_headNotDigit kvs rest)]
      cases kvs with
      | nil => rfl
      | cons k2 v2 tl =>
        have hW2 : objWF (.cons k2 v2 tl) = true := by
          simp only [objWF, Bool.and_eq_true] at hwf ⊢
          exact hwf.2
        have hsz2 : osize (.cons k2 v2 tl) ≤ f := by
          simp only [osize] at hsz ⊢
          omega
        show (match parseObjItems f
            (((escString k2 ++ (':' :: strChars v2)) ++ strObjItems tl) ++ rest) with
          | some (o, rs5) => some (objPrepend k v o, rs5)
          | none => none) = _
        rw [show ((escString k2 ++ (':' :: strChars v2)) ++ strObjItems tl) ++ rest =
          escString k2 ++ (':' :: (strChars v2 ++ (strObjItems tl ++ rest))) by
          simp [List.append_assoc]]
        rw [ih3 k2 v2 tl rest hsz2 hW2]
        have hget : JsonObj.getField (.cons k2 v2 tl) k = none := by
          cases hg : JsonObj.getField (.cons k2 v2 tl) k with
          | none => rfl
          | some w =>
            exfalso
            have h2 := habsent
            simp [JsonObj.hasField, hg] at h2
        rw [show (match some (JsonObj.cons k2 v2 tl, rest) with
          | some (o, rs5) => some (objPrepend k v o, rs5)
          | none => none) =
            some (objPrepend k v (JsonObj.cons k2 v2 tl), rest) from rfl]
        rw [objPrepend_absent k v _ hget]

/-- JSON.parse inverts JSON.stringify on every well-formed value. -/
theorem parse_stringify (v : Json) (h : jsonWF v = true) :
    Json.parse (Json.stringify v) = some v := by
  have hfuel : jsize v ≤ (strChars v).length + 1 := by
    have := jsize_le_len v
    omega
  have h1 := (parse_round ((strChars v).length + 1)).1 v [] hfuel h rfl
  rw [List.append_nil] at h1
  show (match parseVal ((strChars v).length + 1) (strChars v) with
    | some (v2, rest) => if (skipWs rest).isEmpty then some v2 else none
    | none => none) = some v
  rw [h1]
  rfl

/-! ## The persisted table (spec section 6)

One ItemTable per storage path with columns key, value, created_at,
updated_at. SQLite columns are dynamically typed, so a cell is text, an
integer or NULL. The table is a row list; the key column is a primary
key in the real schema, and statement semantics below follow SQL over
the list representation (first match for a point SELECT, all matches for
an UPDATE). -/

/-- One dynamically typed SQLite cell. -/
inductive SqlCell where
  | s (text : String)
  | i (n : Int)
  | nullCell
deriving DecidableEq, Repr

/-- One row of ItemTable. -/
structure ItemRow where
  key : String
  value : String
  createdAt : SqlCell
  updatedAt : SqlCell
deriving DecidableEq, Repr

/-- The table contents. -/
abbrev ItemTable := List ItemRow

/-- SELECT ... WHERE key = ? LIMIT 1: the first matching row. -/
def lookupRow : ItemTable → String → Option ItemRow
  | [], _ => none
  | r :: t, k => if r.key = k then some r else lookupRow t k

/-- Whether a row with the key exists. -/
def hasRow (t : ItemTable) (k : String) : Bool := (lookupRow t k).isSome

/-- UPDATE ... WHERE key = ?: rewrite every matching row. -/
def updateRows (t : ItemTable) (k : String) (g : ItemRow → ItemRow) : ItemTable :=
  t.map (fun r => if r.key = k then g r else r)

/-- Point lookups see the updated row if the rewrite keeps the key. -/
theorem lookupRow_update_same (t : ItemTable) (k : String) (g : ItemRow → ItemRow)
    (hg : ∀ r, (g r).key = r.key) :
    lookupRow (updateRows t k g) k = (lookupRow t k).map g := by
  induction t with
  | nil => rfl
  | cons r t ih =>
    by_cases hr : r.key = k
    · simp [updateRows, lookupRow, hr, hg r]
    · simp only [updateRows, List.map_cons, lookupRow, hr, if_false, if_neg hr]
      exact ih

/-- Point lookups at other keys do not see the rewrite. -/
theorem lookupRow_update_other (t : ItemTable) (k k2 : String) (g : ItemRow → ItemRow)
    (hg : ∀ r, (g r).key = r.key) (hne : k2 ≠ k) :
    lookupRow (updateRows t k g) k2 = lookupRow t k2 := by
  induction t with
  | nil => rfl
  | cons r t ih =>
    simp only [updateRows, List.map_cons] at ih ⊢
    by_cases hr : r.key = k
    · simp only [hr, if_true, lookupRow]
      rw [hg r, hr, if_neg (Ne.symm hne), if_neg (Ne.symm hne)]
      exact ih
    · simp only [lookupRow, hr, if_false]
      by_cases hr2 : r.key = k2
      · simp [lookupRow, hr2]
      · rw [if_neg hr2, if_neg hr2]
        exact ih

/-- Appending a row is invisible until the existing rows miss. -/
theorem lookupRow_append (t : ItemTable) (r : ItemRow) (k : String) :
    lookupRow (t ++ [r]) k =
      match lookupRow t k with
      | some x => some x
      | none => if r.key = k then some r else none := by
  induction t with
  | nil => rfl
  | cons x t ih =>
    by_cases hx : x.key = k
    · simp [lookupRow, hx]
    · simp only [List.cons_append, lookupRow, hx, if_false]
      exact ih

/-! ## Workspace logical store (workspace.ts) -/

/-- Workspace-layer errors: DatabaseError, JsonError, DataValidationError
or NotepadError, reduced to the fields the source constructs and tests. -/
inductive WsError where
  | db (message : String) (operation : String)
  | json (message : String) (operation : String)
  | validation (message : String) (key : String)
  | notepad (message : String) (notepadId : Option String)
deriving DecidableEq, Repr

/-- Workspace.get: queryOne of SELECT value FROM ItemTable WHERE key = ?
bound to the key, null when no row matches, JSON.parse of the stored
text otherwise; a parse failure raises the JsonError kind. -/
def workspaceGet (t : ItemTable) (key : String) : Except WsError (Option Json) :=
  match lookupRow t key with
  | none => .ok none
  | some r =>
    match Json.parse r.value with
    | some v => .ok (some v)
    | none => .error (.json ("Failed to parse stored value for key " ++ key) "parse")

/-- Workspace.set: stringify the value, run the existence check
queryOne(SELECT * FROM ItemTable WHERE key = ?), then either execute
UPDATE ItemTable SET value = ?, updated_at = ? WHERE key = ? with
parameters [json, "unixepoch()", key], or execute INSERT INTO ItemTable
(key, value, created_at, updated_at) VALUES (?, ?, ?, ?) with parameters
[key, json, "unixepoch()", "unixepoch()"]. The timestamp parameters are
the literal text unixepoch() bound positionally (see the C10 theorem for
the built statements), so the columns receive that text, not an epoch. -/
def workspaceSet (t : ItemTable) (key : String) (v : Json) : ItemTable :=
  let jsonValue := v.stringify
  if hasRow t key then
    updateRows t key (fun r => { r with value := jsonValue, updatedAt := .s "unixepoch()" })
  else
    t ++ [⟨key, jsonValue, .s "unixepoch()", .s "unixepoch()"⟩]

/-- Whether pat occurs at the start of the stream. -/
def isPrefixChars : List Char → List Char → Bool
  | [], _ => true
  | _ :: _, [] => false
  | p :: ps, c :: cs => p = c && isPrefixChars ps cs

/-- Whether pat occurs anywhere in the stream. -/
def containsSubAux : List Char → List Char → Bool
  | pat, [] => isPrefixChars pat []
  | pat, c :: cs => isPrefixChars pat (c :: cs) || containsSubAux pat cs

/-- Substring test over the character data. -/
def containsSub (s pat : String) : Bool := containsSubAux pat.data s.data

/-- The verbatim statement template of DatabaseService.set. -/
def dbSetStatementSql : String :=
  "INSERT INTO ItemTable (key, value) \n         VALUES (?, ?) \n         ON CONFLICT(key) DO UPDATE SET \n         value = ?"

/-- DatabaseService.set: the single statement INSERT INTO ItemTable
(key, value) VALUES (?, ?) ON CONFLICT(key) DO UPDATE SET value = ? run
with parameters (key, json, json): a fresh key inserts a row whose
timestamp columns are not mentioned (NULL), a conflicting key updates
only the value column of the existing row. -/
def dbServiceSet (t : ItemTable) (k : String) (v : Json) : ItemTable :=
  if hasRow t k then
    updateRows t k (fun r => { r with value := v.stringify })
  else
    t ++ [⟨k, v.stringify, .nullCell, .nullCell⟩]

/-- Reading back a just-written key returns the written value: the store
holds JSON.stringify v and get parses it. -/
theorem workspaceGet_workspaceSet (t : ItemTable) (k : String) (v : Json)
    (hwf : jsonWF v = true) :
    workspaceGet (workspaceSet t k v) k = .ok (some v) := by
  unfold workspaceSet workspaceGet
  cases hl : lookupRow t k with
  | some r0 =>
    have hhas : hasRow t k = true := by simp [hasRow, hl]
    simp only [hhas, if_true]
    rw [lookupRow_update_same t k
      (fun r => { r with value := v.stringify, updatedAt := SqlCell.s "unixepoch()" })
      (fun r => rfl), hl]
    show (match Json.parse (Json.stringify v) with
      | some v2 => Except.ok (some v2)
      | none =>
        Except.error (WsError.json ("Failed to parse stored value for key " ++ k) "parse")) =
      Except.ok (some v)
    rw [parse_stringify v hwf]
  | none =>
    have hhas : hasRow t k = false := by simp [hasRow, hl]
    simp only [hhas, Bool.false_eq_true, if_false]
    rw [lookupRow_append, hl]
    simp only [if_pos rfl]
    show (match Json.parse (Json.stringify v) with
      | some v2 => Except.ok (some v2)
      | none =>
        Except.error (WsError.json ("Failed to parse stored value for key " ++ k) "parse")) =
      Except.ok (some v)
    rw [parse_stringify v hwf]

/-- C9. For every JSON-serializable value v (a well-formed Json in the
model) and every key, Workspace.set followed by Workspace.get on the same
path returns a value deep-equal to v: the stored text is JSON.stringify v
and get parses it back. -/
theorem C9_set_get_round_trip (t : ItemTable) (k : String) (v : Json)
    (hwf : jsonWF v = true) :
    workspaceGet (workspaceSet t k v) k = .ok (some v) :=
  workspaceGet_workspaceSet t k v hwf

/-- Witness for C9: the spec scenario set(wk1, foo, obj with a = 1). -/
theorem C9_set_get_round_trip_witness :
    jsonWF (Json.obj (.cons "a" (.num 1) .nil)) = true ∧
    workspaceGet (workspaceSet [] "foo" (Json.obj (.cons "a" (.num 1) .nil))) "foo" =
      .ok (some (Json.obj (.cons "a" (.num 1) .nil))) :=
  ⟨rfl, C9_set_get_round_trip [] "foo" (Json.obj (.cons "a" (.num 1) .nil)) rfl⟩

/-- C2 counterexample. On a present key, the single upsert statement of
DatabaseService.set replaces only the value: the updated_at cell keeps
its old content (here the integer 5), and the statement text never
mentions the updated_at column, contradicting the claim that the one
statement updates both the stored value and the updatedAt column. -/
theorem C2_counterexample :
    dbServiceSet [⟨"k", "1", .i 1, .i 5⟩] "k" (.num 2) = [⟨"k", "2", .i 1, .i 5⟩] ∧
    containsSub dbSetStatementSql "updated_at" = false := by
  exact ⟨rfl, by decide⟩

/-- C2 as amended. DatabaseService.set is an upsert performed by the one
statement INSERT INTO ItemTable (key, value) VALUES (?, ?) ON
CONFLICT(key) DO UPDATE SET value = ? with no separate existence check:
an absent key appends a row carrying only key and value, a present key
has exactly its value column replaced while createdAt and updatedAt are
left untouched, and rows under other keys are unaffected. -/
theorem C2_upsert_value_only (t : ItemTable) (k : String) (v : Json) :
    (hasRow t k = false →
      dbServiceSet t k v = t ++ [⟨k, v.stringify, .nullCell, .nullCell⟩]) ∧
    (∀ r0, lookupRow t k = some r0 →
      lookupRow (dbServiceSet t k v) k =
        some ⟨r0.key, v.stringify, r0.createdAt, r0.updatedAt⟩) ∧
    (∀ k2, k2 ≠ k → lookupRow (dbServiceSet t k v) k2 = lookupRow t k2) := by
  refine ⟨?_, ?_, ?_⟩
  · intro hhas
    simp [dbServiceSet, hhas]
  · intro r0 hr0
    have hhas : hasRow t k = true := by simp [hasRow, hr0]
    simp only [dbServiceSet, hhas, if_true]
    rw [lookupRow_update_same t k (fun r => { r with value := v.stringify }) (fun r => rfl), hr0]
    rfl
  · intro k2 hne
    by_cases hhas : hasRow t k = true
    · simp only [dbServiceSet, hhas, if_true]
      exact lookupRow_update_other t k k2 (fun r => { r with value := v.stringify })
        (fun r => rfl) hne
    · have hhasF : hasRow t k = false := by
        simpa using hhas
      simp only [dbServiceSet, hhasF, Bool.false_eq_true, if_false]
      rw [lookupRow_append]
      cases hl2 : lookupRow t k2 with
      | some x => rfl
      | none => exact if_neg (Ne.symm hne)

/-- Witness for C2 as amended, covering the insert branch, the update
branch on the present key, and the frame on another key. -/
theorem C2_upsert_value_only_witness :
    (hasRow [ItemRow.mk "a" "1" (.i 1) (.i 2)] "b" = false ∧
      dbServiceSet [ItemRow.mk "a" "1" (.i 1) (.i 2)] "b" .null =
        [ItemRow.mk "a" "1" (.i 1) (.i 2)] ++ [⟨"b", "null", .nullCell, .nullCell⟩]) ∧
    (lookupRow [ItemRow.mk "a" "1" (.i 1) (.i 2)] "a" = some (ItemRow.mk "a" "1" (.i 1) (.i 2)) ∧
      lookupRow (dbServiceSet [ItemRow.mk "a" "1" (.i 1) (.i 2)] "a" .null) "a" =
        some ⟨"a", "null", .i 1, .i 2⟩) ∧
    (("c" : String) ≠ "a" ∧
      lookupRow (dbServiceSet [ItemRow.mk "a" "1" (.i 1) (.i 2)] "a" .null) "c" =
        lookupRow [ItemRow.mk "a" "1" (.i 1) (.i 2)] "c") :=
  ⟨⟨rfl, (C2_upsert_value_only [ItemRow.mk "a" "1" (.i 1) (.i 2)] "b" .null).1 rfl⟩,
   ⟨rfl, (C2_upsert_value_only [ItemRow.mk "a" "1" (.i 1) (.i 2)] "a" .null).2.1
      (ItemRow.mk "a" "1" (.i 1) (.i 2)) rfl⟩,
   ⟨by decide, (C2_upsert_value_only [ItemRow.mk "a" "1" (.i 1) (.i 2)] "a" .null).2.2
      "c" (by decide)⟩⟩

/-- C10. No write path binds a numeric epoch into the timestamp columns:
the insert branch of Workspace.set builds INSERT INTO ItemTable (key,
value, created_at, updated_at) VALUES (?, ?, ?, ?) binding the literal
string unixepoch() positionally for created_at and updated_at, the update
branch builds UPDATE ItemTable SET value = ?, updated_at = ? WHERE key =
? binding that same string for updated_at, neither statement text
mentions unixepoch (the string travels as a parameter, not as SQL), and
the upsert statement of DatabaseService.set does not mention updated_at
at all. -/
theorem C10_timestamp_binding (key jsonValue : String) :
    ((((QueryBuilder.init.from_ "ItemTable").where_ "key = ?" [.str key]).set "value"
        (.str jsonValue)).set "updated_at" (.str "unixepoch()")).build =
      .ok ⟨"UPDATE ItemTable SET value = ?, updated_at = ? WHERE key = ?",
           [.str jsonValue, .str "unixepoch()", .str key]⟩ ∧
    ((QueryBuilder.init.from_ "ItemTable").insert
        [("key", .str key), ("value", .str jsonValue),
         ("created_at", .str "unixepoch()"), ("updated_at", .str "unixepoch()")]).build =
      .ok ⟨"INSERT INTO ItemTable (key, value, created_at, updated_at) VALUES (?, ?, ?, ?)",
           [.str key, .str jsonValue, .str "unixepoch()", .str "unixepoch()"]⟩ ∧
    containsSub "UPDATE ItemTable SET value = ?, updated_at = ? WHERE key = ?" "unixepoch" = false ∧
    containsSub "INSERT INTO ItemTable (key, value, created_at, updated_at) VALUES (?, ?, ?, ?)"
      "unixepoch" = false ∧
    containsSub dbSetStatementSql "updated_at" = false := by
  exact ⟨rfl, rfl, by decide, by decide, by decide⟩

/-! ## Connection cache (src/unnamed/part_022, DatabaseService.getConnection)

The dbConnections map keyed by exact path string. Opening a connection
performs, in order: directory creation if missing, opening the file
(fileMustExist), the WAL pragma and a SELECT 1 probe; on any failure it
throws DatabaseError with operation connect. No CREATE TABLE or CREATE
INDEX statement is executed anywhere in getConnection. The environment
is a predicate saying which paths can be opened. -/

/-- The statements executed against a freshly opened connection, in
order, verbatim from the source. -/
def openStatements : List String := ["journal_mode = WAL", "SELECT 1"]

/-- Connections are identified by the order they were opened. -/
structure DbServiceState where
  dbConnections : List (String × Nat)
  nextConn : Nat
deriving DecidableEq, Repr

/-- The connect-kind DatabaseError thrown when opening fails. -/
def connectError : DatabaseError :=
  ⟨"Failed to initialize database connection", "connect", none⟩

/-- getConnection(dbPath): return the cached connection for the exact
path string, else open a new one (which fails with the connect error
when the environment cannot open the path), cache it and return it. -/
def getConnection (canOpen : String → Bool) (s : DbServiceState) (dbPath : String) :
    Except DatabaseError (Nat × DbServiceState) :=
  match s.dbConnections.lookup dbPath with
  | some c => .ok (c, s)
  | none =>
    if canOpen dbPath then
      .ok (s.nextConn, ⟨s.dbConnections ++ [(dbPath, s.nextConn)], s.nextConn + 1⟩)
    else
      .error connectError

/-- C6 counterexample. getConnection runs no schema setup: the statements
executed on open are exactly the WAL pragma and the SELECT 1 probe, and
none of them contains CREATE (no row table, no time-based indexes),
contradicting the claimed idempotent schema setup. -/
theorem C6_counterexample :
    openStatements = ["journal_mode = WAL", "SELECT 1"] ∧
    openStatements.all (fun st => !(containsSub st "CREATE")) = true := by
  exact ⟨rfl, by decide⟩

/-- C6 as amended. getConnection returns the cached connection for the
exact path string when one exists (leaving the state unchanged), opens
and caches a new connection otherwise (failing with the connect-tagged
DatabaseError when the file cannot be opened, and running only the WAL
pragma and a probe query, no schema setup), so two consecutive calls
with the same path yield the same connection. -/
theorem C6_connection_cache (canOpen : String → Bool) (s : DbServiceState) (p : String) :
    (∀ c, s.dbConnections.lookup p = some c →
      getConnection canOpen s p = .ok (c, s)) ∧
    (s.dbConnections.lookup p = none → canOpen p = true →
      getConnection canOpen s p =
        .ok (s.nextConn, ⟨s.dbConnections ++ [(p, s.nextConn)], s.nextConn + 1⟩)) ∧
    (s.dbConnections.lookup p = none → canOpen p = false →
      getConnection canOpen s p = .error connectError) ∧
    (∀ c s2, getConnection canOpen s p = .ok (c, s2) →
      getConnection canOpen s2 p = .ok (c, s2)) := by
  refine ⟨?_, ?_, ?_, ?_⟩
  · intro c hc
    simp [getConnection, hc]
  · intro hn ho
    simp [getConnection, hn, ho]
  · intro hn ho
    simp [getConnection, hn, ho]
  · intro c s2 h
    unfold getConnection at h ⊢
    cases hl : s.dbConnections.lookup p with
    | some c0 =>
      rw [hl] at h
      injection h with h
      injection h with h1 h2
      subst h1
      subst h2
      rw [hl]
    | none =>
      rw [hl] at h
      by_cases ho : canOpen p = true
      · rw [if_pos ho] at h
        injection h with h
        injection h with h1 h2
        subst h1
        subst h2
        have hl2 : ((s.dbConnections ++ [(p, s.nextConn)]).lookup p) = some s.nextConn := by
          rw [List.lookup_append]
          rw [hl]
          simp [List.lookup]
        simp [hl2]
      · rw [if_neg ho] at h
        cases h

/-- Witness for C6 as amended: a cache hit returns the cached connection
unchanged, and a miss opens, caches, and then yields the same connection
on the next call with the same path. -/
theorem C6_connection_cache_witness :
    (([("wsA", 0)] : List (String × Nat)).lookup "wsA" = some 0 ∧
      getConnection (fun _ => true) ⟨[("wsA", 0)], 1⟩ "wsA" = .ok (0, ⟨[("wsA", 0)], 1⟩)) ∧
    (getConnection (fun _ => true) ⟨[], 0⟩ "wsB" = .ok (0, ⟨[("wsB", 0)], 1⟩) ∧
      getConnection (fun _ => true) ⟨[("wsB", 0)], 1⟩ "wsB" = .ok (0, ⟨[("wsB", 0)], 1⟩)) :=
  ⟨⟨rfl, (C6_connection_cache (fun _ => true) ⟨[("wsA", 0)], 1⟩ "wsA").1 0 rfl⟩,
   ⟨(C6_connection_cache (fun _ => true) ⟨[], 0⟩ "wsB").2.1 rfl rfl,
    (C6_connection_cache (fun _ => true) ⟨[], 0⟩ "wsB").2.2.2 0 ⟨[("wsB", 0)], 1⟩
      ((C6_connection_cache (fun _ => true) ⟨[], 0⟩ "wsB").2.1 rfl rfl)⟩⟩

/-! ## Workspace discovery (workspace-manager.ts)

loadWorkspaces lists the workspaceStorage directories, and for each one
reads workspace.json, JSON-parses it, takes the folder field, strips the
first file:/// occurrence and percent-decodes it; any failure in that
chain is caught per directory and excluded. The state.vscdb data store is
never probed. The filesystem is modelled as the list of directory entries
with the readable descriptor content (if any) and a flag saying whether a
probe read of the data store would succeed, which the code never
consults. -/

/-- Read one UTF-8 continuation byte written as a percent pair. -/
def contByte : List Char → Option (Nat × List Char)
  | '%' :: h1 :: h2 :: cs =>
    match hexVal h1, hexVal h2 with
    | some a, some b =>
      let byte := a * 16 + b
      if 128 ≤ byte ∧ byte ≤ 191 then some (byte - 128, cs) else none
    | _, _ => none
  | _ => none

/-- decodeURIComponent: percent pairs are decoded as UTF-8 (with the
standard rejection of bad hex, bad continuations, overlong forms,
surrogates and out-of-range code points); all other characters pass
through. Fuel is the input length, consumed one decoded character at a
time. -/
def percentDecodeAux : Nat → List Char → Option (List Char)
  | _, [] => some []
  | 0, _ :: _ => none
  | f + 1, c :: cs =>
    if c = '%' then
      match cs with
      | h1 :: h2 :: cs2 =>
        match hexVal h1, hexVal h2 with
        | some a, some b =>
          let byte := a * 16 + b
          if byte < 128 then
            (percentDecodeAux f cs2).map (fun l => Char.ofNat byte :: l)
          else if 194 ≤ byte ∧ byte ≤ 223 then
            match contByte cs2 with
            | some (b2, cs3) =>
              (percentDecodeAux f cs3).map (fun l => Char.ofNat ((byte - 192) * 64 + b2) :: l)
            | none => none
          else if 224 ≤ byte ∧ byte ≤ 239 then
            match contByte cs2 with
            | some (b2, cs3) =>
              match contByte cs3 with
              | some (b3, cs4) =>
                let cp := (byte - 224) * 4096 + b2 * 64 + b3
                if 2048 ≤ cp ∧ ¬(55296 ≤ cp ∧ cp ≤ 57343) then
                  (percentDecodeAux f cs4).map (fun l => Char.ofNat cp :: l)
                else none
              | none => none
            | none => none
          else if 240 ≤ byte ∧ byte ≤ 244 then
            match contByte cs2 with
            | some (b2, cs3) =>
              match contByte cs3 with
              | some (b3, cs4) =>
                match contByte cs4 with
                | some (b4, cs5) =>
                  let cp := (byte - 240) * 262144 + b2 * 4096 + b3 * 64 + b4
                  if 65536 ≤ cp ∧ cp ≤ 1114111 then
                    (percentDecodeAux f cs5).map (fun l => Char.ofNat cp :: l)
                  else none
                | none => none
              | none => none
            | none => none
          else none
        | _, _ => none
      | _ => none
    else (percentDecodeAux f cs).map (fun l => c :: l)

/-- decodeURIComponent over strings; none models a thrown URIError. -/
def decodeURIComponentModel (s : String) : Option String :=
  (percentDecodeAux s.length s.data).map (fun l => String.mk l)

/-- JavaScript String.replace with a string pattern: replace only the
first occurrence. -/
def replaceOnceAux : List Char → List Char → List Char → List Char
  | [], _, _ => []
  | c :: cs, pat, rep =>
    if isPrefixChars pat (c :: cs) then rep ++ (c :: cs).drop pat.length
    else c :: replaceOnceAux cs pat rep

/-- String.replace(pat, rep), first occurrence only. -/
def replaceOnce (s pat rep : String) : String :=
  ⟨replaceOnceAux s.data pat.data rep.data⟩

/-- The processing of one workspace.json content: JSON.parse, read the
folder property (only a string value survives the .replace call; a
missing or non-string folder raises a TypeError caught by the loader),
strip the first file:/// and percent-decode. -/
def parseWorkspaceJsonFolder (content : String) : Option String :=
  match Json.parse content with
  | none => none
  | some (Json.obj o) =>
    match o.getField "folder" with
    | some (Json.str f) => decodeURIComponentModel (replaceOnce f "file:///" "")
    | _ => none
  | some _ => none

/-- One discovered directory: its name, the readable content of its
workspace.json (none when absent or unreadable), and whether a probe
read of its state.vscdb would succeed (never consulted by the code). -/
structure LocationFS where
  name : String
  descriptor : Option String
  dbProbeOk : Bool

/-- WorkspaceInfo from workspace-manager.ts. -/
structure WorkspaceInfo where
  id : String
  folderPath : String
  dbPath : String
deriving DecidableEq, Repr

/-- The per-directory body of loadWorkspaces: none models the caught
per-directory error path that logs and returns null. -/
def loadWorkspaceDir (root : String) (loc : LocationFS) : Option WorkspaceInfo :=
  match loc.descriptor with
  | none => none
  | some content =>
    match parseWorkspaceJsonFolder content with
    | none => none
    | some folderPath =>
      some ⟨loc.name, folderPath, root ++ "/" ++ loc.name ++ "/state.vscdb"⟩

/-- loadWorkspaces: map every directory through the guarded loader and
keep the non-null results, in directory order. Total: a bad directory is
excluded, never thrown. -/
def loadWorkspaces (root : String) (dirs : List LocationFS) : List WorkspaceInfo :=
  (dirs.map (loadWorkspaceDir root)).filterMap id

/-- A location whose descriptor is readable and fully processable. -/
def descriptorUsable (loc : LocationFS) : Bool :=
  match loc.descriptor with
  | none => false
  | some content => (parseWorkspaceJsonFolder content).isSome

/-- C5 counterexample. Three candidate locations: a is fully usable, b
has an unreadable descriptor, and c has a good descriptor but a data
store whose probe read would fail. Discovery returns a and c: the corrupt
data store does not exclude c, contradicting the claim that exactly the
usable locations are returned. -/
theorem C5_counterexample :
    (loadWorkspaces "/ws"
      [⟨"a", some "\x7b\"folder\": \"file:///home/projA\"\x7d", true⟩,
       ⟨"b", none, true⟩,
       ⟨"c", some "\x7b\"folder\": \"file:///home/projC\"\x7d", false⟩]).map WorkspaceInfo.id =
      ["a", "c"] ∧
    (["a", "c"] : List String) ≠ ["a"] := by
  exact ⟨rfl, by decide⟩

/-- C5 as amended. initialize()/getAll() return handles for exactly the
locations whose workspace.json descriptor is readable and processes
(JSON-parses to an object whose folder field is a string that survives
the file:/// strip and URI decode), in directory order; the data store
is never probed, so locations with corrupt databases are included
unchanged, and no location failure aborts discovery (the loader is a
total function over the directory list). -/
theorem C5_discovery_by_descriptor (root : String) (dirs : List LocationFS) :
    (loadWorkspaces root dirs).map WorkspaceInfo.id =
      (dirs.filter descriptorUsable).map LocationFS.name ∧
    loadWorkspaces root
        (dirs.map (fun l => LocationFS.mk l.name l.descriptor false)) =
      loadWorkspaces root dirs := by
  constructor
  · induction dirs with
    | nil => rfl
    | cons l dirs ih =>
      cases hd : l.descriptor with
      | none =>
        have hl : loadWorkspaceDir root l = none := by
          unfold loadWorkspaceDir
          rw [hd]
        have hu : descriptorUsable l = false := by
          unfold descriptorUsable
          rw [hd]
        simp only [loadWorkspaces, List.map_cons, List.filterMap_cons, hl,
          List.filter_cons, hu, Bool.false_eq_true, if_false]
        exact ih
      | some content =>
        cases hp : parseWorkspaceJsonFolder content with
        | none =>
          have hl : loadWorkspaceDir root l = none := by
            unfold loadWorkspaceDir
            rw [hd]
            show (match parseWorkspaceJsonFolder content with
              | none => none
              | some folderPath =>
                some (WorkspaceInfo.mk l.name folderPath
                  (root ++ "/" ++ l.name ++ "/state.vscdb"))) =
              (none : Option WorkspaceInfo)
            rw [hp]
          have hu : descriptorUsable l = false := by
            unfold descriptorUsable
            rw [hd]
            show (parseWorkspaceJsonFolder content).isSome = false
            rw [hp]
            rfl
          simp only [loadWorkspaces, List.map_cons, List.filterMap_cons, hl,
            List.filter_cons, hu, Bool.false_eq_true, if_false]
          exact ih
        | some folderPath =>
          have hl : loadWorkspaceDir root l =
              some ⟨l.name, folderPath, root ++ "/" ++ l.name ++ "/state.vscdb"⟩ := by
            unfold loadWorkspaceDir
            rw [hd]
            show (match parseWorkspaceJsonFolder content with
              | none => none
              | some folderPath =>
                some (WorkspaceInfo.mk l.name folderPath
                  (root ++ "/" ++ l.name ++ "/state.vscdb"))) =
              some (WorkspaceInfo.mk l.name folderPath (root ++ "/" ++ l.name ++ "/state.vscdb"))
            rw [hp]
          have hu : descriptorUsable l = true := by
            unfold descriptorUsable
            rw [hd]
            show (parseWorkspaceJsonFolder content).isSome = true
            rw [hp]
            rfl
          simp only [loadWorkspaces, List.map_cons, List.filterMap_cons, hl, id,
            List.filter_cons, hu, if_true, List.map_cons]
          exact congrArg (l.name :: ·) ih
  · induction dirs with
    | nil => rfl
    | cons l dirs ih =>
      have hsame : loadWorkspaceDir root (LocationFS.mk l.name l.descriptor false) =
          loadWorkspaceDir root l := by
        cases l
        rfl
      simp only [loadWorkspaces] at ih ⊢
      simp only [List.map_cons, List.filterMap_cons, hsame, ih]

/-! ## Object field update lemmas -/

/-- Reading the field just written. -/
theorem getField_setField_same (o : JsonObj) (k : String) (v : Json) :
    (o.setField k v).getField k = some v := by
  match o with
  | .nil => simp [JsonObj.setField, JsonObj.getField]
  | .cons k1 w tl =>
    by_cases hk : k1 = k
    · simp [JsonObj.setField, JsonObj.getField, hk]
    · simp only [JsonObj.setField, hk, if_false, JsonObj.getField]
      exact getField_setField_same tl k v

/-- Writing one field leaves the others unchanged. -/
theorem getField_setField_ne (o : JsonObj) (k k2 : String) (v : Json) (h : k2 ≠ k) :
    (o.setField k v).getField k2 = o.getField k2 := by
  match o with
  | .nil =>
    simp only [JsonObj.setField, JsonObj.getField]
    rw [if_neg (fun he => h he.symm)]
  | .cons k1 w tl =>
    by_cases hk : k1 = k
    · simp only [JsonObj.setField, hk, if_true, JsonObj.getField]
      rw [if_neg (fun he => h he.symm), if_neg (fun he => h he.symm)]
    · simp only [JsonObj.setField, hk, if_false, JsonObj.getField]
      by_cases hk2 : k1 = k2
      · simp [hk2]
      · rw [if_neg hk2, if_neg hk2]
        exact getField_setField_ne tl k k2 v h

/-- The deleted field reads as absent. -/
theorem getField_delField_same (o : JsonObj) (k : String) :
    (o.delField k).getField k = none := by
  match o with
  | .nil => rfl
  | .cons k1 w tl =>
    by_cases hk : k1 = k
    · simp only [JsonObj.delField, hk, if_true]
      exact getField_delField_same tl k
    · simp only [JsonObj.delField, hk, if_false, JsonObj.getField]
      exact getField_delField_same tl k

/-- Deleting one field leaves the others unchanged. -/
theorem getField_delField_ne (o : JsonObj) (k k2 : String) (h : k2 ≠ k) :
    (o.delField k).getField k2 = o.getField k2 := by
  match o with
  | .nil => rfl
  | .cons k1 w tl =>
    by_cases hk : k1 = k
    · simp only [JsonObj.delField, hk, if_true, JsonObj.getField]
      rw [if_neg (fun he => h he.symm)]
      exact getField_delField_ne tl k k2 h
    · simp only [JsonObj.delField, hk, if_false, JsonObj.getField]
      by_cases hk2 : k1 = k2
      · simp [hk2]
      · rw [if_neg hk2, if_neg hk2]
        exact getField_delField_ne tl k k2 h

/-- Well-formed objects hold well-formed field values. -/
theorem objWF_getField (o : JsonObj) (k : String) (v : Json)
    (ho : objWF o = true) (hv : o.getField k = some v) : jsonWF v = true := by
  match o with
  | .nil => cases hv
  | .cons k1 w tl =>
    simp only [objWF, Bool.and_eq_true] at ho
    simp only [JsonObj.getField] at hv
    by_cases hk : k1 = k
    · rw [if_pos hk] at hv
      injection hv with hv
      subst hv
      exact ho.1.2
    · rw [if_neg hk] at hv
      exact objWF_getField tl k v ho.2 hv

/-- Updating a field with a well-formed value keeps the object well formed. -/
theorem objWF_setField (o : JsonObj) (k : String) (v : Json)
    (ho : objWF o = true) (hv : jsonWF v = true) : objWF (o.setField k v) = true := by
  match o with
  | .nil => simp [JsonObj.setField, objWF, JsonObj.hasField, JsonObj.getField, hv]
  | .cons k1 w tl =>
    simp only [objWF, Bool.and_eq_true, Bool.not_eq_true'] at ho
    by_cases hk : k1 = k
    · simp only [JsonObj.setField, hk, if_true, objWF, Bool.and_eq_true, Bool.not_eq_true']
      exact ⟨⟨hk ▸ ho.1.1, hv⟩, ho.2⟩
    · simp only [JsonObj.setField, hk, if_false, objWF, Bool.and_eq_true, Bool.not_eq_true']
      refine ⟨⟨?_, ho.1.2⟩, objWF_setField tl k v ho.2 hv⟩
      simp only [JsonObj.hasField]
      rw [getField_setField_ne tl k k1 v hk]
      have hh := ho.1.1
      simp only [JsonObj.hasField] at hh
      exact hh

/-- Deleting a field keeps the object well formed. -/
theorem objWF_delField (o : JsonObj) (k : String)
    (ho : objWF o = true) : objWF (o.delField k) = true := by
  match o with
  | .nil => rfl
  | .cons k1 w tl =>
    simp only [objWF, Bool.and_eq_true, Bool.not_eq_true'] at ho
    by_cases hk : k1 = k
    · simp only [JsonObj.delField, hk, if_true]
      exact objWF_delField tl k ho.2
    · simp only [JsonObj.delField, hk, if_false, objWF, Bool.and_eq_true, Bool.not_eq_true']
      refine ⟨⟨?_, ho.1.2⟩, objWF_delField tl k ho.2⟩
      simp only [JsonObj.hasField]
      rw [getField_delField_ne tl k k1 hk]
      have hh := ho.1.1
      simp only [JsonObj.hasField] at hh
      exact hh

/-- Point reads at other keys ignore a workspaceSet. -/
theorem workspaceGet_frame (t : ItemTable) (k k2 : String) (v : Json) (h : k2 ≠ k) :
    workspaceGet (workspaceSet t k v) k2 = workspaceGet t k2 := by
  unfold workspaceGet workspaceSet
  by_cases hhas : hasRow t k = true
  · simp only [hhas, if_true]
    rw [lookupRow_update_other t k k2
      (fun r => { r with value := v.stringify, updatedAt := SqlCell.s "unixepoch()" })
      (fun r => rfl) h]
  · have hhasF : hasRow t k = false := by simpa using hhas
    simp only [hhasF, Bool.false_eq_true, if_false]
    rw [lookupRow_append]
    cases hl2 : lookupRow t k2 with
    | some x => rfl
    | none =>
      rw [if_neg (fun he => h he.symm)]

/-! ## Notepad layer (notepad.ts, notepad-manager.ts)

The notepad code stores a blob object of shape
(notepadDataVersion, notepads) under the two storage keys of
Notepad.storageKeys, with notepads a string-keyed map from notepad id to
the serialized NotepadInfo. All JavaScript values in play are JSON
values, so the embedding works over Json. -/

/-- Property access v.k in JavaScript, for the values that reach it here:
objects yield the named field or undefined (none); primitives and arrays
yield undefined for the string keys used by this code. -/
def jfield : Json → String → Option Json
  | .obj o, k => o.getField k
  | _, _ => none

/-- Coerce a field that the surrounding validation guarantees to be a
string (property reads such as this.data.id on a validated info). -/
def jstr : Option Json → String
  | some (.str s) => s
  | _ => ""

/-- typeof x === 'string' on a possibly-undefined JSON value. -/
def fieldIsString : Option Json → Bool
  | some (.str _) => true
  | _ => false

/-- typeof x === 'number' on a possibly-undefined JSON value. -/
def fieldIsNumber : Option Json → Bool
  | some (.num _) => true
  | _ => false

/-- typeof x === 'boolean' on a possibly-undefined JSON value. -/
def fieldIsBoolean : Option Json → Bool
  | some (.bool _) => true
  | _ => false

/-- The guard pattern x && typeof x === 'object' on a possibly-undefined
JSON value: a truthy value whose typeof is object (JSON objects and
non-empty-check arrays; null and undefined are rejected by truthiness). -/
def fieldIsTruthyObject : Option Json → Bool
  | some v => !v.falsy && v.typeofObject
  | none => false

/-- Array.isArray on a possibly-undefined JSON value. -/
def fieldIsArray : Option Json → Bool
  | some (.arr _) => true
  | _ => false

/-- isValidNotepadInfo (notepad.ts): the info must be a truthy object
whose id, name and text are strings, createdAt a number, context a
truthy object, the two pane percentages numbers, inputBoxDelegate and
inputBoxDelegateMap truthy objects, shouldShowBottomPane a boolean and
tabs an array. -/
def isValidNotepadInfo (info : Json) : Bool :=
  !info.falsy && info.typeofObject &&
  fieldIsString (jfield info "id") &&
  fieldIsString (jfield info "name") &&
  fieldIsString (jfield info "text") &&
  fieldIsNumber (jfield info "createdAt") &&
  fieldIsTruthyObject (jfield info "context") &&
  fieldIsNumber (jfield info "bottomRightPanePercentage") &&
  fieldIsNumber (jfield info "verticalTopPanePercentage") &&
  fieldIsTruthyObject (jfield info "inputBoxDelegate") &&
  fieldIsTruthyObject (jfield info "inputBoxDelegateMap") &&
  fieldIsBoolean (jfield info "shouldShowBottomPane") &&
  fieldIsArray (jfield info "tabs")

/-- isValidNotepadData (notepad-manager.ts): a truthy object whose
notepadDataVersion is a number and whose notepads is a truthy object. -/
def isValidNotepadData (data : Json) : Bool :=
  !data.falsy && data.typeofObject &&
  fieldIsNumber (jfield data "notepadDataVersion") &&
  fieldIsTruthyObject (jfield data "notepads")

/-- The message carried by a workspace-layer error (error.message in the
catch blocks). -/
def wsErrMessage : WsError → String
  | .db m _ => m
  | .json m _ => m
  | .validation m _ => m
  | .notepad m _ => m

/-- The catch pattern `if (error instanceof DataValidationError) throw
error` followed by wrapping anything else in a NotepadError whose message
prepends the given prefix. -/
def rethrowOrWrap (e : WsError) (pre : String) (nid : Option String) : WsError :=
  match e with
  | .validation m k => .validation m k
  | e => .notepad (pre ++ wsErrMessage e) nid

/-- Notepad.storageKeys: the primary key and the mirror key, in loop
order. -/
def storageKeys : List String := ["notepadData", "notepad.reactiveStorageId"]

/-- String.prototype.trim (whitespace stripped from both ends; the model
covers the JSON whitespace characters, which suffice for the inputs in
play). -/
def trimString (s : String) : String :=
  ⟨((s.data.dropWhile (fun c => isWsChar c)).reverse.dropWhile
      (fun c => isWsChar c)).reverse⟩

/-- createDefaultContext (notepad-manager.ts): the literal context object
with every collection empty, in source property order. -/
def defaultContextJson : Json :=
  .obj (JsonObj.ofList [
    ("editTrailContexts", .arr .nil),
    ("externalLinks", .arr .nil),
    ("fileSelections", .arr .nil),
    ("folderSelections", .arr .nil),
    ("mentions", .obj (JsonObj.ofList [
      ("diffHistory", .arr .nil),
      ("editTrailContexts", .obj .nil),
      ("externalLinks", .obj .nil),
      ("fileSelections", .obj .nil),
      ("folderSelections", .obj .nil),
      ("gitDiff", .arr .nil),
      ("gitDiffFromBranchToMain", .arr .nil),
      ("notepads", .obj .nil),
      ("quotes", .obj .nil),
      ("selectedCommits", .obj .nil),
      ("selectedDocs", .obj .nil),
      ("selectedImages", .obj .nil),
      ("selectedPullRequests", .obj .nil),
      ("selections", .obj .nil),
      ("terminalFiles", .obj .nil),
      ("terminalSelections", .obj .nil),
      ("useContextPicking", .arr .nil),
      ("useDiffReview", .arr .nil),
      ("useLinterErrors", .arr .nil),
      ("useRememberThis", .arr .nil),
      ("useWeb", .arr .nil),
      ("usesCodebase", .arr .nil)])),
    ("notepads", .arr .nil),
    ("quotes", .arr .nil),
    ("selectedCommits", .arr .nil),
    ("selectedDocs", .arr .nil),
    ("selectedImages", .arr .nil),
    ("selectedPullRequests", .arr .nil),
    ("selections", .arr .nil),
    ("terminalFiles", .arr .nil),
    ("terminalSelections", .arr .nil)])

/-- The literal object (e: false). -/
def emptyDelegate : Json := .obj (.cons "e" (.bool false) .nil)

/-- The single chat tab built by createNotepad, in source property
order. -/
def notepadTabJson (bubbleId tabId : String) : Json :=
  .obj (JsonObj.ofList [
    ("bubbles", .arr (.cons (.obj (JsonObj.ofList [
      ("context", defaultContextJson),
      ("id", .str bubbleId),
      ("messageType", .num 2),
      ("type", .str "user")])) .nil)),
    ("chatTitle", .str "New Notepad Chat"),
    ("lastFocusedBubbleId", .str bubbleId),
    ("tabId", .str tabId),
    ("tabState", .str "chat")])

/-- The NotepadInfo literal built by createNotepad, in source property
order; the random ids and Date.now() are parameters. -/
def notepadInfoJson (npId name text : String) (now : Int)
    (bubbleId tabId : String) : Json :=
  .obj (JsonObj.ofList [
    ("id", .str npId),
    ("name", .str name),
    ("text", .str text),
    ("createdAt", .num now),
    ("context", defaultContextJson),
    ("bottomRightPanePercentage", .num 25),
    ("verticalTopPanePercentage", .num 75),
    ("inputBoxDelegate", emptyDelegate),
    ("inputBoxDelegateMap", .obj (.cons bubbleId emptyDelegate .nil)),
    ("shouldShowBottomPane", .bool false),
    ("tabs", .arr (.cons (notepadTabJson bubbleId tabId) .nil))])

/-- The blob after the assignment data.notepads[id] = info. -/
def insBlob (o npo : JsonObj) (id : String) (info : Json) : Json :=
  .obj (o.setField "notepads" (.obj (npo.setField id info)))

/-- The blob after delete data.notepads[id]. -/
def delBlob (o npo : JsonObj) (id : String) : Json :=
  .obj (o.setField "notepads" (.obj (npo.delField id)))

/-- The body of one Notepad.save loop iteration once a truthy blob was
loaded: the assignment data.notepads[id] = info requires notepads to be
an object (on null or undefined the property write throws a TypeError,
surfaced through the catch; string-keyed writes into non-objects fall
outside the JSON model and are mapped to the same error branch), and the
updated blob is written back with Workspace.set. -/
def saveNotepadsField (t : ItemTable) (key : String) (info : Json)
    (id : String) (o : JsonObj) : Except WsError ItemTable :=
  match o.getField "notepads" with
  | some (.obj npo) => .ok (workspaceSet t key (insBlob o npo id info))
  | _ => .error (.notepad "TypeError" (some id))

def saveToBlob (t : ItemTable) (key : String) (info : Json) (id : String)
    (data : Json) : Except WsError ItemTable :=
  if data.falsy then .ok t
  else
    match data with
    | .obj o => saveNotepadsField t key info id o
    | _ => .error (.notepad "TypeError" (some id))

/-- One iteration of the Notepad.save loop at one storage key: load the
blob; `if (!data) continue` skips an absent or falsy blob without
writing; otherwise update and write back. -/
def saveStep (t : ItemTable) (key : String) (info : Json) (id : String) :
    Except WsError ItemTable :=
  match workspaceGet t key with
  | .error e => .error e
  | .ok none => .ok t
  | .ok (some data) => saveToBlob t key info id data

/-- The Notepad.save loop over the storage keys, threading the store. -/
def saveSteps (t : ItemTable) (keys : List String) (info : Json)
    (id : String) : Except WsError ItemTable :=
  match keys with
  | [] => .ok t
  | k :: ks =>
    match saveStep t k info id with
    | .error e => .error e
    | .ok t2 => saveSteps t2 ks info id

/-- Notepad.save: revalidate the held info (DataValidationError on
failure), then run the loop; any error thrown inside the loop is caught
and wrapped in a NotepadError tagged with the notepad id. -/
def notepadSave (t : ItemTable) (info : Json) : Except WsError ItemTable :=
  if isValidNotepadInfo info = true then
    match saveSteps t storageKeys info (jstr (jfield info "id")) with
    | .error e =>
      .error (.notepad ("Failed to save notepad: " ++ wsErrMessage e)
        (some (jstr (jfield info "id"))))
    | .ok t2 => .ok t2
  else .error (.validation "Invalid notepad data state" "notepadData")

/-- The NotepadInfo value createNotepad builds: the name trimmed, the
text trimmed and defaulted to the empty string (input.text?.trim() falls
back to the empty string, which the || then keeps). -/
def createInfo (name : String) (textOpt : Option String)
    (npId : String) (now : Int) (bubbleId tabId : String) : Json :=
  notepadInfoJson npId (trimString name)
    (match textOpt with
     | none => ""
     | some s => trimString s) now bubbleId tabId

/-- NotepadManager.createNotepad: reject an empty or all-whitespace name
with a DataValidationError outside the try block; build the NotepadInfo
literal; the Notepad constructor revalidates; save persists; any error
inside the try block is wrapped as NotepadError with message Failed to
create notepad and the inner message in the id slot. Returns the updated
store and the info. -/
def createNotepad (t : ItemTable) (name : String) (textOpt : Option String)
    (bubbleId tabId npId : String) (now : Int) :
    Except WsError (ItemTable × Json) :=
  if name = "" then .error (.validation "Notepad name is required" "name")
  else if trimString name = "" then
    .error (.validation "Notepad name is required" "name")
  else
    match notepadSave t (createInfo name textOpt npId now bubbleId tabId) with
    | .error e =>
      .error (.notepad "Failed to create notepad" (some (wsErrMessage e)))
    | .ok t2 => .ok (t2, createInfo name textOpt npId now bubbleId tabId)

/-- The empty blob synthesized by NotepadManager.getNotepadData when the
stored value is absent or falsy. -/
def emptyNotepadData : Json :=
  .obj (.cons "notepadDataVersion" (.num 0) (.cons "notepads" (.obj .nil) .nil))

/-- NotepadManager.getNotepadData: read only the primary key notepadData;
absent or falsy yields the synthesized empty blob; an invalid blob
raises DataValidationError; storage errors propagate to the callers
catch blocks. -/
def getNotepadData (t : ItemTable) : Except WsError Json :=
  match workspaceGet t "notepadData" with
  | .error e => .error e
  | .ok none => .ok emptyNotepadData
  | .ok (some d) =>
    if d.falsy then .ok emptyNotepadData
    else if isValidNotepadData d = true then .ok d
    else .error (.validation "Invalid notepad data structure" "notepadData")

/-- The lookup data.notepads[id] of NotepadManager.getNotepad: a missing
or falsy entry yields null; a present entry is revalidated by the
Notepad constructor (DataValidationError when invalid). -/
def getEntry (info : Json) : Except WsError (Option Json) :=
  if info.falsy then .ok none
  else if isValidNotepadInfo info = true then .ok (some info)
  else .error (.validation "Invalid notepad info structure" "notepadInfo")

def lookupEntry (np : Json) (id : String) : Except WsError (Option Json) :=
  match jfield np id with
  | none => .ok none
  | some info => getEntry info

def getNotepadFromData (d : Json) (id : String) :
    Except WsError (Option Json) :=
  match jfield d "notepads" with
  | some np => lookupEntry np id
  | none => .ok none

/-- NotepadManager.getNotepad: reject an empty id; read the primary blob
only (getNotepadData); look the id up in it; DataValidationError is
rethrown, other errors wrapped. -/
def getNotepad (t : ItemTable) (id : String) : Except WsError (Option Json) :=
  if id = "" then .error (.validation "Invalid notepad ID" "id")
  else
    match getNotepadData t with
    | .error e =>
      .error (rethrowOrWrap e "Failed to retrieve notepad: " (some id))
    | .ok d => getNotepadFromData d id

/-- The body of one Notepad.delete loop iteration once a truthy blob was
loaded: skip when the entry for the id is absent or falsy; otherwise
remove the entry, write the blob back and record success. Reading
data.notepads[id] from a null or undefined notepads field throws a
TypeError, surfaced through the catch. -/
def deleteEntry (t : ItemTable) (key id : String) (o npo : JsonObj) :
    Except WsError (ItemTable × Bool) :=
  match npo.getField id with
  | none => .ok (t, false)
  | some info =>
    if info.falsy then .ok (t, false)
    else .ok (workspaceSet t key (delBlob o npo id), true)

def deleteNotepadsField (t : ItemTable) (key id : String) (o : JsonObj) :
    Except WsError (ItemTable × Bool) :=
  match o.getField "notepads" with
  | none => .error (.notepad "TypeError" (some id))
  | some .null => .error (.notepad "TypeError" (some id))
  | some (.obj npo) => deleteEntry t key id o npo
  | some _ => .ok (t, false)

def deleteFromBlob (t : ItemTable) (key : String) (id : String)
    (data : Json) : Except WsError (ItemTable × Bool) :=
  if data.falsy then .ok (t, false)
  else
    match data with
    | .obj o => deleteNotepadsField t key id o
    | _ => .error (.notepad "TypeError" (some id))

/-- The per-key load of the Notepad.delete loop; on a stored truthy blob
the removal body runs (deleteFromBlob). -/
def deleteStep (t : ItemTable) (key : String) (id : String) :
    Except WsError (ItemTable × Bool) :=
  match workspaceGet t key with
  | .error e => .error e
  | .ok none => .ok (t, false)
  | .ok (some data) => deleteFromBlob t key id data

/-- The Notepad.delete loop over the storage keys, accumulating the
success flag. -/
def deleteSteps (t : ItemTable) (keys : List String) (id : String)
    (success : Bool) : Except WsError (ItemTable × Bool) :=
  match keys with
  | [] => .ok (t, success)
  | k :: ks =>
    match deleteStep t k id with
    | .error e => .error e
    | .ok (t2, s) => deleteSteps t2 ks id (success || s)

/-- Notepad.delete: run the loop; any error thrown inside is caught and
wrapped in a NotepadError tagged with the notepad id. -/
def notepadDelete (t : ItemTable) (id : String) :
    Except WsError (ItemTable × Bool) :=
  match deleteSteps t storageKeys id false with
  | .error e =>
    .error (.notepad ("Failed to delete notepad: " ++ wsErrMessage e) (some id))
  | .ok r => .ok r

/-- NotepadManager.deleteNotepad: reject an empty id; getNotepad consults
only the primary blob; a miss returns false without touching storage;
a hit constructs the Notepad on the retrieved info (so the id used by
the removal loop is the id field of that info) and delegates to
Notepad.delete; DataValidationError is rethrown, other errors wrapped. -/
def deleteNotepad (t : ItemTable) (id : String) :
    Except WsError (ItemTable × Bool) :=
  if id = "" then .error (.validation "Invalid notepad ID" "id")
  else
    match getNotepad t id with
    | .error e =>
      .error (rethrowOrWrap e "Failed to delete notepad: " (some id))
    | .ok none => .ok (t, false)
    | .ok (some info) =>
      match notepadDelete t (jstr (jfield info "id")) with
      | .error e =>
        .error (rethrowOrWrap e "Failed to delete notepad: " (some id))
      | .ok r => .ok r

/-- Whether the decoded blob stored at a key currently carries a truthy
entry for the id in its notepads map (the presence test the source
applies with !data.notepads[id]). -/
def entryTruthy (npo : JsonObj) (id : String) : Bool :=
  match npo.getField id with
  | some v => !v.falsy
  | none => false

def blobContains (b : Json) (id : String) : Bool :=
  match jfield b "notepads" with
  | some (.obj npo) => entryTruthy npo id
  | _ => false

def mirrorContains (t : ItemTable) (key id : String) : Bool :=
  match workspaceGet t key with
  | .ok (some b) => blobContains b id
  | _ => false

/-- A stored blob of the shape the notepad layer maintains: it passes
isValidNotepadData, its notepads field is a JSON object, and it is
well-formed (distinct keys), as every blob produced by JSON.parse is. -/
def blobShaped (b : Json) : Bool :=
  isValidNotepadData b &&
  (match jfield b "notepads" with
   | some (.obj _) => true
   | _ => false) &&
  jsonWF b

/-- The storage key is in a state the notepad layer can work with:
either no blob is stored, or the stored text decodes to a shaped blob. -/
def wellShapedAt (t : ItemTable) (key : String) : Bool :=
  match workspaceGet t key with
  | .ok none => true
  | .ok (some b) => blobShaped b
  | .error _ => false

/-- Whether a blob is stored and truthy at the key (the `if (!data)
continue` test of the save loop, seen from outside). -/
def blobPresent (t : ItemTable) (key : String) : Bool :=
  match workspaceGet t key with
  | .ok (some b) => !b.falsy
  | _ => false

/-- The truthy entry the primary notepadData blob holds for the id, if
any (what getNotepad will hand to the Notepad constructor). -/
def entryVal (npo : JsonObj) (id : String) : Option Json :=
  match npo.getField id with
  | some v => if v.falsy then none else some v
  | none => none

def blobEntry (b : Json) (id : String) : Option Json :=
  match jfield b "notepads" with
  | some (.obj npo) => entryVal npo id
  | _ => none

def primaryEntry (t : ItemTable) (id : String) : Option Json :=
  match workspaceGet t "notepadData" with
  | .ok (some b) => blobEntry b id
  | _ => none

/-! ## Notepad layer lemmas -/

/-- Field access on an object value is getField. -/
theorem jfield_obj (o : JsonObj) (k : String) :
    jfield (.obj o) k = o.getField k := rfl

/-- Well-formedness of an object value is objWF of its fields. -/
theorem jsonWF_obj (o : JsonObj) : jsonWF (.obj o) = objWF o := rfl

/-- The built info always validates: every checked field is present with
the checked type by construction. -/
theorem createInfo_valid (name : String) (textOpt : Option String)
    (npId : String) (now : Int) (bubbleId tabId : String) :
    isValidNotepadInfo (createInfo name textOpt npId now bubbleId tabId) =
      true := rfl

/-- The built info is well-formed JSON: all keys are distinct literals
(the one variable key sits alone in its object). -/
theorem createInfo_wf (name : String) (textOpt : Option String)
    (npId : String) (now : Int) (bubbleId tabId : String) :
    jsonWF (createInfo name textOpt npId now bubbleId tabId) = true := rfl

/-- The id property of the built info is the generated id. -/
theorem createInfo_id (name : String) (textOpt : Option String)
    (npId : String) (now : Int) (bubbleId tabId : String) :
    jstr (jfield (createInfo name textOpt npId now bubbleId tabId) "id") =
      npId := rfl

/-- The built info is an object, hence truthy. -/
theorem createInfo_truthy (name : String) (textOpt : Option String)
    (npId : String) (now : Int) (bubbleId tabId : String) :
    (createInfo name textOpt npId now bubbleId tabId).falsy = false := rfl

/-- A shaped blob is an object with an object notepads field, valid and
well-formed. -/
theorem blobShaped_elim (b : Json) (h : blobShaped b = true) :
    ∃ o npo, b = .obj o ∧ isValidNotepadData (.obj o) = true ∧
      o.getField "notepads" = some (.obj npo) ∧
      objWF o = true ∧ objWF npo = true := by
  match b with
  | .null | .bool _ | .num _ | .str _ | .arr _ =>
    simp [blobShaped, isValidNotepadData, jfield, fieldIsNumber,
      fieldIsTruthyObject, Json.falsy, Json.typeofObject] at h
  | .obj o =>
    simp only [blobShaped, Bool.and_eq_true] at h
    obtain ⟨⟨hvd, hnp⟩, hwf⟩ := h
    rw [jfield_obj] at hnp
    cases hg : o.getField "notepads" with
    | none => rw [hg] at hnp; simp at hnp
    | some np =>
      rw [hg] at hnp
      match np with
      | .null | .bool _ | .num _ | .str _ | .arr _ => simp at hnp
      | .obj npo =>
        rw [jsonWF_obj] at hwf
        have hwn : jsonWF (.obj npo) = true := objWF_getField o "notepads" _ hwf hg
        rw [jsonWF_obj] at hwn
        exact ⟨o, npo, rfl, hvd, hg, hwf, hwn⟩

/-- A well-shaped key either stores nothing or stores a shaped blob. -/
theorem wellShapedAt_elim (t : ItemTable) (key : String)
    (h : wellShapedAt t key = true) :
    workspaceGet t key = .ok none ∨
      ∃ o npo, workspaceGet t key = .ok (some (.obj o)) ∧
        isValidNotepadData (.obj o) = true ∧
        o.getField "notepads" = some (.obj npo) ∧
        objWF o = true ∧ objWF npo = true := by
  unfold wellShapedAt at h
  cases hg : workspaceGet t key with
  | error e => rw [hg] at h; simp at h
  | ok ob =>
    cases ob with
    | none => exact Or.inl rfl
    | some b =>
      rw [hg] at h
      obtain ⟨o, npo, hb, hvd, hnp, hwo, hwn⟩ := blobShaped_elim b h
      subst hb
      exact Or.inr ⟨o, npo, rfl, hvd, hnp, hwo, hwn⟩


/-- Inserting a well-formed entry into a shaped blob keeps it
well-formed. -/
theorem insBlob_wf (o npo : JsonObj) (id : String) (info : Json)
    (hwo : objWF o = true) (hwn : objWF npo = true)
    (hwi : jsonWF info = true) : jsonWF (insBlob o npo id info) = true := by
  show objWF (o.setField "notepads" (.obj (npo.setField id info))) = true
  exact objWF_setField o "notepads" _ hwo
    (show jsonWF (.obj (npo.setField id info)) = true from
      objWF_setField npo id info hwn hwi)

/-- Removing an entry from a shaped blob keeps it well-formed. -/
theorem delBlob_wf (o npo : JsonObj) (id : String)
    (hwo : objWF o = true) (hwn : objWF npo = true) :
    jsonWF (delBlob o npo id) = true := by
  show objWF (o.setField "notepads" (.obj (npo.delField id))) = true
  exact objWF_setField o "notepads" _ hwo
    (show jsonWF (.obj (npo.delField id)) = true from objWF_delField npo id hwn)

/-- The save loop skips a key that stores nothing. -/
theorem saveStep_absent (t : ItemTable) (key : String) (info : Json)
    (id : String) (h : workspaceGet t key = .ok none) :
    saveStep t key info id = .ok t := by
  unfold saveStep
  rw [h]

/-- The save loop updates a stored shaped blob in place and writes it
back. -/
theorem saveStep_blob (t : ItemTable) (key : String) (info : Json)
    (id : String) (o npo : JsonObj)
    (h : workspaceGet t key = .ok (some (.obj o)))
    (hnp : o.getField "notepads" = some (.obj npo)) :
    saveStep t key info id = .ok (workspaceSet t key (insBlob o npo id info)) := by
  unfold saveStep
  rw [h]
  show saveNotepadsField t key info id o = _
  unfold saveNotepadsField
  rw [hnp]

/-- The delete loop skips a key that stores nothing. -/
theorem deleteStep_absent (t : ItemTable) (key id : String)
    (h : workspaceGet t key = .ok none) :
    deleteStep t key id = .ok (t, false) := by
  unfold deleteStep
  rw [h]

/-- On a stored shaped blob the delete loop reduces to deleteEntry. -/
theorem deleteStep_blob (t : ItemTable) (key id : String) (o npo : JsonObj)
    (h : workspaceGet t key = .ok (some (.obj o)))
    (hnp : o.getField "notepads" = some (.obj npo)) :
    deleteStep t key id = deleteEntry t key id o npo := by
  unfold deleteStep
  rw [h]
  show deleteNotepadsField t key id o = _
  unfold deleteNotepadsField
  rw [hnp]

/-- deleteEntry on a missing entry: skip. -/
theorem deleteEntry_miss (t : ItemTable) (key id : String) (o npo : JsonObj)
    (hv : npo.getField id = none) :
    deleteEntry t key id o npo = .ok (t, false) := by
  unfold deleteEntry
  rw [hv]

/-- deleteEntry on a falsy entry: skip. -/
theorem deleteEntry_falsy (t : ItemTable) (key id : String) (o npo : JsonObj)
    (v : Json) (hv : npo.getField id = some v) (hf : v.falsy = true) :
    deleteEntry t key id o npo = .ok (t, false) := by
  unfold deleteEntry
  rw [hv]
  show (if v.falsy = true then Except.ok (t, false)
    else Except.ok (workspaceSet t key (delBlob o npo id), true)) = _
  rw [hf]
  rfl

/-- deleteEntry on a truthy entry: remove it, write back, succeed. -/
theorem deleteEntry_hit (t : ItemTable) (key id : String) (o npo : JsonObj)
    (v : Json) (hv : npo.getField id = some v) (hf : v.falsy = false) :
    deleteEntry t key id o npo =
      .ok (workspaceSet t key (delBlob o npo id), true) := by
  unfold deleteEntry
  rw [hv]
  show (if v.falsy = true then Except.ok (t, false)
    else Except.ok (workspaceSet t key (delBlob o npo id), true)) = _
  rw [hf]
  rfl

/-- getNotepadData on an empty primary key synthesizes the default. -/
theorem getNotepadData_absent (t : ItemTable)
    (h : workspaceGet t "notepadData" = .ok none) :
    getNotepadData t = .ok emptyNotepadData := by
  unfold getNotepadData
  rw [h]

/-- getNotepadData on a stored valid blob returns it. -/
theorem getNotepadData_blob (t : ItemTable) (o : JsonObj)
    (h : workspaceGet t "notepadData" = .ok (some (.obj o)))
    (hvd : isValidNotepadData (.obj o) = true) :
    getNotepadData t = .ok (.obj o) := by
  unfold getNotepadData
  rw [h]
  show (if isValidNotepadData (.obj o) = true then Except.ok (Json.obj o)
    else Except.error
      (WsError.validation "Invalid notepad data structure" "notepadData")) =
    Except.ok (Json.obj o)
  rw [hvd]
  rfl

/-- getNotepad misses when the primary key stores nothing. -/
theorem getNotepad_absent (t : ItemTable) (id : String) (hid : ¬(id = ""))
    (h : workspaceGet t "notepadData" = .ok none) :
    getNotepad t id = .ok none := by
  unfold getNotepad
  rw [if_neg hid, getNotepadData_absent t h]
  rfl

/-- getNotepad on a stored valid blob reduces to the entry lookup. -/
theorem getNotepad_blob (t : ItemTable) (id : String) (hid : ¬(id = ""))
    (o npo : JsonObj)
    (h : workspaceGet t "notepadData" = .ok (some (.obj o)))
    (hvd : isValidNotepadData (.obj o) = true)
    (hnp : o.getField "notepads" = some (.obj npo)) :
    getNotepad t id = lookupEntry (.obj npo) id := by
  unfold getNotepad
  rw [if_neg hid, getNotepadData_blob t o h hvd]
  show getNotepadFromData (.obj o) id = _
  unfold getNotepadFromData
  rw [jfield_obj, hnp]

/-- lookupEntry on a missing entry. -/
theorem lookupEntry_miss (npo : JsonObj) (id : String)
    (hv : npo.getField id = none) : lookupEntry (.obj npo) id = .ok none := by
  unfold lookupEntry
  rw [jfield_obj, hv]

/-- lookupEntry on a falsy entry. -/
theorem lookupEntry_falsy (npo : JsonObj) (id : String) (v : Json)
    (hv : npo.getField id = some v) (hf : v.falsy = true) :
    lookupEntry (.obj npo) id = .ok none := by
  unfold lookupEntry
  rw [jfield_obj, hv]
  show getEntry v = _
  unfold getEntry
  rw [hf]
  rfl

/-- lookupEntry on a truthy valid entry. -/
theorem lookupEntry_hit (npo : JsonObj) (id : String) (v : Json)
    (hv : npo.getField id = some v) (hf : v.falsy = false)
    (hvalid : isValidNotepadInfo v = true) :
    lookupEntry (.obj npo) id = .ok (some v) := by
  unfold lookupEntry
  rw [jfield_obj, hv]
  show getEntry v = _
  unfold getEntry
  rw [hf, hvalid]
  rfl

/-- blobContains on a shaped blob is the truthiness of the entry. -/
theorem blobContains_eq (o npo : JsonObj) (id : String)
    (hnp : o.getField "notepads" = some (.obj npo)) :
    blobContains (.obj o) id = entryTruthy npo id := by
  unfold blobContains
  rw [jfield_obj, hnp]

/-- mirrorContains at an empty key is false. -/
theorem mirrorContains_absent (t : ItemTable) (key id : String)
    (h : workspaceGet t key = .ok none) :
    mirrorContains t key id = false := by
  unfold mirrorContains
  rw [h]

/-- mirrorContains at a stored blob is blobContains of the blob. -/
theorem mirrorContains_blob (t : ItemTable) (key id : String) (b : Json)
    (h : workspaceGet t key = .ok (some b)) :
    mirrorContains t key id = blobContains b id := by
  unfold mirrorContains
  rw [h]

/-- Writes at one key do not change mirrorContains at another key. -/
theorem mirrorContains_frame (t : ItemTable) (k key id : String) (v : Json)
    (h : key ≠ k) :
    mirrorContains (workspaceSet t k v) key id = mirrorContains t key id := by
  unfold mirrorContains
  rw [workspaceGet_frame t k key v h]

/-- After writing the insert-updated blob, the key carries the id. -/
theorem mirrorContains_ins (t : ItemTable) (key id : String)
    (o npo : JsonObj) (info : Json)
    (hwb : jsonWF (insBlob o npo id info) = true)
    (hfi : info.falsy = false) :
    mirrorContains (workspaceSet t key (insBlob o npo id info)) key id =
      true := by
  rw [mirrorContains_blob _ key id _ (workspaceGet_workspaceSet t key _ hwb)]
  unfold insBlob
  rw [blobContains_eq _ _ id (getField_setField_same o "notepads" _)]
  unfold entryTruthy
  rw [getField_setField_same]
  show (!info.falsy) = true
  rw [hfi]
  rfl

/-- After writing the delete-updated blob, the key no longer carries the
id. -/
theorem mirrorContains_del (t : ItemTable) (key id : String)
    (o npo : JsonObj) (hwb : jsonWF (delBlob o npo id) = true) :
    mirrorContains (workspaceSet t key (delBlob o npo id)) key id =
      false := by
  rw [mirrorContains_blob _ key id _ (workspaceGet_workspaceSet t key _ hwb)]
  unfold delBlob
  rw [blobContains_eq _ _ id (getField_setField_same o "notepads" _)]
  unfold entryTruthy
  rw [getField_delField_same]

/-- primaryEntry when the primary key stores nothing. -/
theorem primaryEntry_absent (t : ItemTable) (id : String)
    (h : workspaceGet t "notepadData" = .ok none) :
    primaryEntry t id = none := by
  unfold primaryEntry
  rw [h]

/-- primaryEntry at a stored shaped blob is the truthy entry. -/
theorem primaryEntry_blob (t : ItemTable) (id : String) (o npo : JsonObj)
    (h : workspaceGet t "notepadData" = .ok (some (.obj o)))
    (hnp : o.getField "notepads" = some (.obj npo)) :
    primaryEntry t id = entryVal npo id := by
  unfold primaryEntry
  rw [h]
  show blobEntry (.obj o) id = _
  unfold blobEntry
  rw [jfield_obj, hnp]

/-- entryVal on a missing entry. -/
theorem entryVal_miss (npo : JsonObj) (id : String)
    (hv : npo.getField id = none) : entryVal npo id = none := by
  unfold entryVal
  rw [hv]

/-- entryVal on a falsy entry. -/
theorem entryVal_falsy (npo : JsonObj) (id : String) (v : Json)
    (hv : npo.getField id = some v) (hf : v.falsy = true) :
    entryVal npo id = none := by
  unfold entryVal
  rw [hv]
  show (if v.falsy = true then none else some v) = none
  rw [hf]
  rfl

/-- entryVal on a truthy entry. -/
theorem entryVal_hit (npo : JsonObj) (id : String) (v : Json)
    (hv : npo.getField id = some v) (hf : v.falsy = false) :
    entryVal npo id = some v := by
  unfold entryVal
  rw [hv]
  show (if v.falsy = true then none else some v) = some v
  rw [hf]
  rfl

/-- entryTruthy on a missing entry. -/
theorem entryTruthy_miss (npo : JsonObj) (id : String)
    (hv : npo.getField id = none) : entryTruthy npo id = false := by
  unfold entryTruthy
  rw [hv]

/-- entryTruthy on a falsy entry. -/
theorem entryTruthy_falsy (npo : JsonObj) (id : String) (v : Json)
    (hv : npo.getField id = some v) (hf : v.falsy = true) :
    entryTruthy npo id = false := by
  unfold entryTruthy
  rw [hv]
  show (!v.falsy) = false
  rw [hf]
  rfl

/-- blobPresent is false at an empty key. -/
theorem blobPresent_absent (t : ItemTable) (key : String)
    (h : workspaceGet t key = .ok none) : blobPresent t key = false := by
  unfold blobPresent
  rw [h]

/-- blobPresent is true at a key storing an object blob. -/
theorem blobPresent_obj (t : ItemTable) (key : String) (o : JsonObj)
    (h : workspaceGet t key = .ok (some (.obj o))) :
    blobPresent t key = true := by
  unfold blobPresent
  rw [h]
  rfl

/-- The save loop over both storage keys, assembled from the two
steps. -/
theorem saveSteps_pair (t t1 t2 : ItemTable) (info : Json) (id : String)
    (h1 : saveStep t "notepadData" info id = .ok t1)
    (h2 : saveStep t1 "notepad.reactiveStorageId" info id = .ok t2) :
    saveSteps t storageKeys info id = .ok t2 := by
  show (match saveStep t "notepadData" info id with
    | .error e => Except.error e
    | .ok t3 => saveSteps t3 ["notepad.reactiveStorageId"] info id) = .ok t2
  rw [h1]
  show (match saveStep t1 "notepad.reactiveStorageId" info id with
    | .error e => Except.error e
    | .ok t3 => saveSteps t3 [] info id) = .ok t2
  rw [h2]
  rfl

/-- A successful save loop makes createNotepad succeed with the built
info. -/
theorem createNotepad_eq (t : ItemTable) (name : String)
    (textOpt : Option String) (bubbleId tabId npId : String) (now : Int)
    (hname0 : ¬(name = "")) (hname : ¬(trimString name = ""))
    (t2 : ItemTable)
    (hss : saveSteps t storageKeys
      (createInfo name textOpt npId now bubbleId tabId) npId = .ok t2) :
    createNotepad t name textOpt bubbleId tabId npId now =
      .ok (t2, createInfo name textOpt npId now bubbleId tabId) := by
  unfold createNotepad
  rw [if_neg hname0, if_neg hname]
  unfold notepadSave
  rw [if_pos (createInfo_valid name textOpt npId now bubbleId tabId),
    createInfo_id name textOpt npId now bubbleId tabId, hss]

/-- The delete loop over both storage keys, assembled from the two
steps. -/
theorem deleteSteps_pair (t t1 t2 : ItemTable) (id : String) (s1 s2 : Bool)
    (h1 : deleteStep t "notepadData" id = .ok (t1, s1))
    (h2 : deleteStep t1 "notepad.reactiveStorageId" id = .ok (t2, s2)) :
    deleteSteps t storageKeys id false = .ok (t2, s1 || s2) := by
  show (match deleteStep t "notepadData" id with
    | .error e => Except.error e
    | .ok (t3, s) => deleteSteps t3 ["notepad.reactiveStorageId"] id
        (false || s)) = .ok (t2, s1 || s2)
  rw [h1]
  show (match deleteStep t1 "notepad.reactiveStorageId" id with
    | .error e => Except.error e
    | .ok (t3, s) => deleteSteps t3 [] id (s1 || s)) = .ok (t2, s1 || s2)
  rw [h2]
  rfl

/-- Notepad.delete from an assembled loop run. -/
theorem notepadDelete_eq (t t2 : ItemTable) (id : String) (s : Bool)
    (h : deleteSteps t storageKeys id false = .ok (t2, s)) :
    notepadDelete t id = .ok (t2, s) := by
  unfold notepadDelete
  rw [h]

/-- deleteNotepad returns false untouched when getNotepad misses. -/
theorem deleteNotepad_eq_miss (t : ItemTable) (id : String)
    (hid : ¬(id = "")) (hget : getNotepad t id = .ok none) :
    deleteNotepad t id = .ok (t, false) := by
  unfold deleteNotepad
  rw [if_neg hid, hget]

/-- deleteNotepad delegates to Notepad.delete on a hit, keyed by the id
field of the retrieved info. -/
theorem deleteNotepad_eq_hit (t t2 : ItemTable) (id : String) (info : Json)
    (s : Bool) (hid : ¬(id = ""))
    (hget : getNotepad t id = .ok (some info))
    (hidf : jstr (jfield info "id") = id)
    (hnd : notepadDelete t id = .ok (t2, s)) :
    deleteNotepad t id = .ok (t2, s) := by
  unfold deleteNotepad
  rw [if_neg hid, hget]
  show (match notepadDelete t (jstr (jfield info "id")) with
    | .error e =>
      Except.error (rethrowOrWrap e "Failed to delete notepad: " (some id))
    | .ok r => Except.ok r) = .ok (t2, s)
  rw [hidf, hnd]

/-- C4 counterexample. On a store where neither storage key holds a
blob, createNotepad succeeds, yet the store is returned unchanged: no
empty blob is synthesized for the absent mirror keys and the new id is
present under neither key, contradicting the claim that after a
successful create the id is present in the decoded blob of every
configured mirror key, synthesizing an empty blob where none was
stored. -/
theorem C4_counterexample :
    createNotepad [] "My Notes" none "b1" "t1" "n1" 0 =
      .ok ([], createInfo "My Notes" none "n1" 0 "b1" "t1") ∧
    mirrorContains [] "notepadData" "n1" = false ∧
    mirrorContains [] "notepad.reactiveStorageId" "n1" = false :=
  ⟨rfl, rfl, rfl⟩

/-- C4 as amended. After a successful createNotepad on a store whose two
storage keys are well shaped, the new notepad id is present in the
decoded blob under every mirror key that held a blob before the call,
while a mirror key that held no blob is skipped unchanged: the save loop
continues on a missing blob and never synthesizes an empty one. -/
theorem C4_create_updates_only_present_mirrors
    (t : ItemTable) (name : String) (textOpt : Option String)
    (bubbleId tabId npId : String) (now : Int)
    (hname : ¬(trimString name = ""))
    (h1 : wellShapedAt t "notepadData" = true)
    (h2 : wellShapedAt t "notepad.reactiveStorageId" = true) :
    ∃ t2, createNotepad t name textOpt bubbleId tabId npId now =
        .ok (t2, createInfo name textOpt npId now bubbleId tabId) ∧
      (blobPresent t "notepadData" = true →
        mirrorContains t2 "notepadData" npId = true) ∧
      (blobPresent t "notepadData" = false →
        workspaceGet t2 "notepadData" = .ok none) ∧
      (blobPresent t "notepad.reactiveStorageId" = true →
        mirrorContains t2 "notepad.reactiveStorageId" npId = true) ∧
      (blobPresent t "notepad.reactiveStorageId" = false →
        workspaceGet t2 "notepad.reactiveStorageId" = .ok none) := by
  have hname0 : ¬(name = "") := by
    intro he
    apply hname
    rw [he]
    decide
  rcases wellShapedAt_elim t "notepadData" h1 with hg1 |
    ⟨o1, npo1, hg1, hvd1, hnp1, hwo1, hwn1⟩ <;>
    rcases wellShapedAt_elim t "notepad.reactiveStorageId" h2 with hg2 |
      ⟨o2, npo2, hg2, hvd2, hnp2, hwo2, hwn2⟩
  · refine ⟨t, createNotepad_eq t name textOpt bubbleId tabId npId now
      hname0 hname t (saveSteps_pair t t t _ npId
        (saveStep_absent t _ _ npId hg1) (saveStep_absent t _ _ npId hg2)),
      ?_, ?_, ?_, ?_⟩
    · intro hx
      rw [blobPresent_absent t _ hg1] at hx
      exact Bool.noConfusion hx
    · intro _
      exact hg1
    · intro hx
      rw [blobPresent_absent t _ hg2] at hx
      exact Bool.noConfusion hx
    · intro _
      exact hg2
  · refine ⟨workspaceSet t "notepad.reactiveStorageId"
      (insBlob o2 npo2 npId (createInfo name textOpt npId now bubbleId tabId)),
      createNotepad_eq t name textOpt bubbleId tabId npId now hname0 hname _
        (saveSteps_pair t t _ _ npId (saveStep_absent t _ _ npId hg1)
          (saveStep_blob t _ _ npId o2 npo2 hg2 hnp2)),
      ?_, ?_, ?_, ?_⟩
    · intro hx
      rw [blobPresent_absent t _ hg1] at hx
      exact Bool.noConfusion hx
    · intro _
      rw [workspaceGet_frame t _ _ _ (by decide)]
      exact hg1
    · intro _
      exact mirrorContains_ins t _ npId o2 npo2 _
        (insBlob_wf o2 npo2 npId _ hwo2 hwn2
          (createInfo_wf name textOpt npId now bubbleId tabId))
        (createInfo_truthy name textOpt npId now bubbleId tabId)
    · intro hx
      rw [blobPresent_obj t _ o2 hg2] at hx
      exact Bool.noConfusion hx
  · have hga : workspaceGet (workspaceSet t "notepadData"
        (insBlob o1 npo1 npId (createInfo name textOpt npId now bubbleId tabId)))
        "notepad.reactiveStorageId" = .ok none := by
      rw [workspaceGet_frame t _ _ _ (by decide)]
      exact hg2
    refine ⟨workspaceSet t "notepadData"
      (insBlob o1 npo1 npId (createInfo name textOpt npId now bubbleId tabId)),
      createNotepad_eq t name textOpt bubbleId tabId npId now hname0 hname _
        (saveSteps_pair t _ _ _ npId (saveStep_blob t _ _ npId o1 npo1 hg1 hnp1)
          (saveStep_absent _ _ _ npId hga)),
      ?_, ?_, ?_, ?_⟩
    · intro _
      exact mirrorContains_ins t _ npId o1 npo1 _
        (insBlob_wf o1 npo1 npId _ hwo1 hwn1
          (createInfo_wf name textOpt npId now bubbleId tabId))
        (createInfo_truthy name textOpt npId now bubbleId tabId)
    · intro hx
      rw [blobPresent_obj t _ o1 hg1] at hx
      exact Bool.noConfusion hx
    · intro hx
      rw [blobPresent_absent t _ hg2] at hx
      exact Bool.noConfusion hx
    · intro _
      exact hga
  · have hg2a : workspaceGet (workspaceSet t "notepadData"
        (insBlob o1 npo1 npId (createInfo name textOpt npId now bubbleId tabId)))
        "notepad.reactiveStorageId" = .ok (some (.obj o2)) := by
      rw [workspaceGet_frame t _ _ _ (by decide)]
      exact hg2
    refine ⟨workspaceSet
      (workspaceSet t "notepadData"
        (insBlob o1 npo1 npId (createInfo name textOpt npId now bubbleId tabId)))
      "notepad.reactiveStorageId"
      (insBlob o2 npo2 npId (createInfo name textOpt npId now bubbleId tabId)),
      createNotepad_eq t name textOpt bubbleId tabId npId now hname0 hname _
        (saveSteps_pair t _ _ _ npId (saveStep_blob t _ _ npId o1 npo1 hg1 hnp1)
          (saveStep_blob _ _ _ npId o2 npo2 hg2a hnp2)),
      ?_, ?_, ?_, ?_⟩
    · intro _
      rw [mirrorContains_frame _ _ _ npId _ (by decide)]
      exact mirrorContains_ins t _ npId o1 npo1 _
        (insBlob_wf o1 npo1 npId _ hwo1 hwn1
          (createInfo_wf name textOpt npId now bubbleId tabId))
        (createInfo_truthy name textOpt npId now bubbleId tabId)
    · intro hx
      rw [blobPresent_obj t _ o1 hg1] at hx
      exact Bool.noConfusion hx
    · intro _
      exact mirrorContains_ins _ _ npId o2 npo2 _
        (insBlob_wf o2 npo2 npId _ hwo2 hwn2
          (createInfo_wf name textOpt npId now bubbleId tabId))
        (createInfo_truthy name textOpt npId now bubbleId tabId)
    · intro hx
      rw [blobPresent_obj t _ o2 hg2] at hx
      exact Bool.noConfusion hx

/-- The one-key store used to witness the amended C4 theorem: the
primary key holds the empty blob, the mirror key holds nothing. -/
def createWitnessTable : ItemTable :=
  [⟨"notepadData", Json.stringify emptyNotepadData, .nullCell, .nullCell⟩]

/-- Witness for C4 as amended at a concrete store: the primary key holds
a blob and receives the id, the mirror key holds nothing and stays
empty. -/
theorem C4_create_updates_only_present_mirrors_witness :
    ¬(trimString "My Notes" = "") ∧
    wellShapedAt createWitnessTable "notepadData" = true ∧
    wellShapedAt createWitnessTable "notepad.reactiveStorageId" = true ∧
    (∃ t2, createNotepad createWitnessTable "My Notes" (some " hi ")
        "b1" "t1" "n1" 42 =
        .ok (t2, createInfo "My Notes" (some " hi ") "n1" 42 "b1" "t1") ∧
      (blobPresent createWitnessTable "notepadData" = true →
        mirrorContains t2 "notepadData" "n1" = true) ∧
      (blobPresent createWitnessTable "notepadData" = false →
        workspaceGet t2 "notepadData" = .ok none) ∧
      (blobPresent createWitnessTable "notepad.reactiveStorageId" = true →
        mirrorContains t2 "notepad.reactiveStorageId" "n1" = true) ∧
      (blobPresent createWitnessTable "notepad.reactiveStorageId" = false →
        workspaceGet t2 "notepad.reactiveStorageId" = .ok none)) :=
  ⟨by decide, by decide, by decide,
    C4_create_updates_only_present_mirrors createWitnessTable "My Notes"
      (some " hi ") "b1" "t1" "n1" 42 (by decide) (by decide) (by decide)⟩

/-- The store used against the C7 claim: the primary notepadData blob
has an empty notepads map, while the mirror key notepad.reactiveStorageId
stores a blob whose notepads map carries the id x. -/
def deleteCounterTable : ItemTable :=
  [⟨"notepadData", Json.stringify emptyNotepadData, .nullCell, .nullCell⟩,
   ⟨"notepad.reactiveStorageId",
     Json.stringify (.obj (.cons "notepadDataVersion" (.num 0)
       (.cons "notepads"
         (.obj (.cons "x" (.obj (.cons "id" (.str "x") .nil)) .nil)) .nil))),
     .nullCell, .nullCell⟩]

/-- C7 counterexample. The mirror blob under notepad.reactiveStorageId
contains the id x, but deleteNotepad returns false and leaves the store
untouched, because it consults only the primary notepadData blob (via
getNotepad) and that blob does not contain x. This contradicts the claim
that delete removes the id from every mirror blob containing it and
returns true when at least one mirror contained it. -/
theorem C7_counterexample :
    deleteNotepad deleteCounterTable "x" = .ok (deleteCounterTable, false) ∧
    mirrorContains deleteCounterTable "notepad.reactiveStorageId" "x" =
      true :=
  ⟨rfl, rfl⟩

/-- C7 as amended. deleteNotepad consults only the primary notepadData
blob: when that blob holds no truthy entry for the id, the call returns
false with the store unchanged, regardless of what any mirror blob
contains; when the primary blob holds a truthy valid entry whose own id
field equals the id, the call returns true and afterwards no storage key
carries a truthy entry for the id. -/
theorem C7_delete_consults_primary_only (t : ItemTable) (id : String)
    (hid : ¬(id = ""))
    (h1 : wellShapedAt t "notepadData" = true)
    (h2 : wellShapedAt t "notepad.reactiveStorageId" = true) :
    (primaryEntry t id = none → deleteNotepad t id = .ok (t, false)) ∧
    (∀ info, primaryEntry t id = some info →
      isValidNotepadInfo info = true →
      jstr (jfield info "id") = id →
      ∃ t2, deleteNotepad t id = .ok (t2, true) ∧
        mirrorContains t2 "notepadData" id = false ∧
        mirrorContains t2 "notepad.reactiveStorageId" id = false) := by
  rcases wellShapedAt_elim t "notepadData" h1 with hg1 |
    ⟨o1, npo1, hg1, hvd1, hnp1, hwo1, hwn1⟩
  · constructor
    · intro _
      exact deleteNotepad_eq_miss t id hid (getNotepad_absent t id hid hg1)
    · intro info hinfo _ _
      rw [primaryEntry_absent t id hg1] at hinfo
      exact Option.noConfusion hinfo
  · have hget := getNotepad_blob t id hid o1 npo1 hg1 hvd1 hnp1
    have hpe := primaryEntry_blob t id o1 npo1 hg1 hnp1
    cases hv : npo1.getField id with
    | none =>
      constructor
      · intro _
        exact deleteNotepad_eq_miss t id hid
          (hget.trans (lookupEntry_miss npo1 id hv))
      · intro info hinfo _ _
        rw [hpe, entryVal_miss npo1 id hv] at hinfo
        exact Option.noConfusion hinfo
    | some v =>
      cases hf : v.falsy with
      | true =>
        constructor
        · intro _
          exact deleteNotepad_eq_miss t id hid
            (hget.trans (lookupEntry_falsy npo1 id v hv hf))
        · intro info hinfo _ _
          rw [hpe, entryVal_falsy npo1 id v hv hf] at hinfo
          exact Option.noConfusion hinfo
      | false =>
        constructor
        · intro hnone
          rw [hpe, entryVal_hit npo1 id v hv hf] at hnone
          exact Option.noConfusion hnone
        · intro info hinfo hvalid hidf
          rw [hpe, entryVal_hit npo1 id v hv hf] at hinfo
          injection hinfo with hinfo
          subst hinfo
          have hgets : getNotepad t id = .ok (some v) :=
            hget.trans (lookupEntry_hit npo1 id v hv hf hvalid)
          have hstep1 : deleteStep t "notepadData" id =
              .ok (workspaceSet t "notepadData" (delBlob o1 npo1 id), true) :=
            (deleteStep_blob t _ id o1 npo1 hg1 hnp1).trans
              (deleteEntry_hit t _ id o1 npo1 v hv hf)
          have hfr : workspaceGet
              (workspaceSet t "notepadData" (delBlob o1 npo1 id))
              "notepad.reactiveStorageId" =
              workspaceGet t "notepad.reactiveStorageId" :=
            workspaceGet_frame t _ _ _ (by decide)
          have hm1 : mirrorContains
              (workspaceSet t "notepadData" (delBlob o1 npo1 id))
              "notepadData" id = false :=
            mirrorContains_del t _ id o1 npo1 (delBlob_wf o1 npo1 id hwo1 hwn1)
          rcases wellShapedAt_elim t "notepad.reactiveStorageId" h2 with hg2 |
            ⟨o2, npo2, hg2, hvd2, hnp2, hwo2, hwn2⟩
          · exact ⟨workspaceSet t "notepadData" (delBlob o1 npo1 id),
              deleteNotepad_eq_hit t _ id v true hid hgets hidf
                (notepadDelete_eq t _ id true
                  (deleteSteps_pair t _ _ id true false hstep1
                    (deleteStep_absent _ _ id (hfr.trans hg2)))),
              hm1, mirrorContains_absent _ _ id (hfr.trans hg2)⟩
          · have hg2a := hfr.trans hg2
            have hstepb := deleteStep_blob _ "notepad.reactiveStorageId" id
              o2 npo2 hg2a hnp2
            cases hv2 : npo2.getField id with
            | none =>
              exact ⟨workspaceSet t "notepadData" (delBlob o1 npo1 id),
                deleteNotepad_eq_hit t _ id v true hid hgets hidf
                  (notepadDelete_eq t _ id true
                    (deleteSteps_pair t _ _ id true false hstep1
                      (hstepb.trans (deleteEntry_miss _ _ id o2 npo2 hv2)))),
                hm1,
                (mirrorContains_blob _ _ id _ hg2a).trans
                  ((blobContains_eq o2 npo2 id hnp2).trans
                    (entryTruthy_miss npo2 id hv2))⟩
            | some v2 =>
              cases hf2 : v2.falsy with
              | true =>
                exact ⟨workspaceSet t "notepadData" (delBlob o1 npo1 id),
                  deleteNotepad_eq_hit t _ id v true hid hgets hidf
                    (notepadDelete_eq t _ id true
                      (deleteSteps_pair t _ _ id true false hstep1
                        (hstepb.trans
                          (deleteEntry_falsy _ _ id o2 npo2 v2 hv2 hf2)))),
                  hm1,
                  (mirrorContains_blob _ _ id _ hg2a).trans
                    ((blobContains_eq o2 npo2 id hnp2).trans
                      (entryTruthy_falsy npo2 id v2 hv2 hf2))⟩
              | false =>
                exact ⟨workspaceSet
                    (workspaceSet t "notepadData" (delBlob o1 npo1 id))
                    "notepad.reactiveStorageId" (delBlob o2 npo2 id),
                  deleteNotepad_eq_hit t _ id v true hid hgets hidf
                    (notepadDelete_eq t _ id true
                      (deleteSteps_pair t _ _ id true true hstep1
                        (hstepb.trans
                          (deleteEntry_hit _ _ id o2 npo2 v2 hv2 hf2)))),
                  (mirrorContains_frame _ _ _ id _ (by decide)).trans hm1,
                  mirrorContains_del _ _ id o2 npo2
                    (delBlob_wf o2 npo2 id hwo2 hwn2)⟩

/-- A fully valid notepad info used to witness the amended C7 theorem. -/
def deleteWitnessInfo : Json := notepadInfoJson "x" "N" "" 0 "b" "t"

/-- The store used to witness the amended C7 theorem: the primary key
holds a blob whose notepads map carries the valid entry x. -/
def deleteWitnessTable : ItemTable :=
  workspaceSet [] "notepadData"
    (.obj (.cons "notepadDataVersion" (.num 0)
      (.cons "notepads" (.obj (.cons "x" deleteWitnessInfo .nil)) .nil)))

/-- Witness for C7 as amended at a concrete store holding a valid entry
for the id x under the primary key. -/
theorem C7_delete_consults_primary_only_witness :
    ¬("x" = "") ∧
    wellShapedAt deleteWitnessTable "notepadData" = true ∧
    wellShapedAt deleteWitnessTable "notepad.reactiveStorageId" = true ∧
    ((primaryEntry deleteWitnessTable "x" = none →
        deleteNotepad deleteWitnessTable "x" =
          .ok (deleteWitnessTable, false)) ∧
      (∀ info, primaryEntry deleteWitnessTable "x" = some info →
        isValidNotepadInfo info = true →
        jstr (jfield info "id") = "x" →
        ∃ t2, deleteNotepad deleteWitnessTable "x" = .ok (t2, true) ∧
          mirrorContains t2 "notepadData" "x" = false ∧
          mirrorContains t2 "notepad.reactiveStorageId" "x" = false)) := by
  have h1 : wellShapedAt deleteWitnessTable "notepadData" = true := by
    unfold wellShapedAt deleteWitnessTable
    rw [workspaceGet_workspaceSet [] "notepadData" _ (by rfl)]
    rfl
  have h2 : wellShapedAt deleteWitnessTable "notepad.reactiveStorageId" =
      true := by
    unfold wellShapedAt deleteWitnessTable
    rw [workspaceGet_frame [] "notepadData" "notepad.reactiveStorageId" _
      (by decide)]
    rfl
  exact ⟨by decide, h1, h2,
    C7_delete_consults_primary_only deleteWitnessTable "x" (by decide) h1 h2⟩
